import Mathlib

/-!
# Verification of the web-access pipeline (n8n-nodes-webaccess)

Shallow embedding of the repository's core pipeline:

* URL validation and the content-acquisition fallback chain
  (`stages/acquire`, `utils/extraction.ts: validateUrl`);
* deterministic extraction: e-mail extraction with obfuscation decoding
  (`utils/extraction.ts: extractEmails`), product-card extraction
  (`extractProductsFromHtml`);
* task-intent detection and the non-LLM extraction gate
  (`stages/extract`: `detectIntent`, `tryNonLlmExtraction`);
* the agent tool set (`agent/tools.ts`) and the bounded ReAct executor
  (`executeAgent`).

Modelling conventions:

* JavaScript strings are modelled as `List Char` internally (Lean's `String`
  appears only at interfaces); `undefined`-able strings are `Option String`,
  with JS truthiness (`undefined` and `""` are falsy) made explicit.
* External collaborators (HTTP/proxy/browser transports, the WHATWG `URL`
  parser, the HTML/DOM parser, the crawler service and the LLM chat API) are
  parameters ("oracles"): every theorem quantifies over their behaviour.
* Wall-clock times (`Date.now`) are environmental and modelled as `0` in the
  `scrapeTime` field; no claim concerns elapsed time.
* Regex-based scanning from the source is compiled to explicit left-to-right
  scanners with the same leftmost-match semantics; each scanner documents the
  regex it implements.
-/

namespace WebAccess

/-! ## JS string primitives over `List Char` -/

/-- JS truthiness of an optional string: `undefined` and `""` are falsy. -/
def strVal : Option String → Option String
  | none => none
  | some s => if s = "" then none else some s

/-- Models `x || d` for an optional string `x` and default `d`. -/
def orDefault (s : Option String) (d : String) : String :=
  match strVal s with
  | none => d
  | some v => v

/-- Whitespace test modelling the JS `\s` class (core ASCII subset). -/
def isWS (c : Char) : Bool := c = ' ' || c = '\t' || c = '\n' || c = '\r'

/-- ASCII uppercase test (`A`–`Z`), the range affected by `toLowerCase`. -/
def upperA (c : Char) : Bool := 65 ≤ c.toNat && c.toNat ≤ 90

/-- ASCII lowering of a single character, modelling `String.prototype.toLowerCase`
on the character ranges the pipeline manipulates. -/
def lowerChar (c : Char) : Char := if upperA c then Char.ofNat (c.toNat + 32) else c

/-- Lowercase an entire character list. -/
def lowerL (l : List Char) : List Char := l.map lowerChar

/-- `String.prototype.trim`: drop whitespace from both ends. -/
def trimL (l : List Char) : List Char := ((l.dropWhile isWS).reverse.dropWhile isWS).reverse

/-- `startsWith pat l`: `l` begins with `pat` (case-sensitive). -/
def startsWithL : List Char → List Char → Bool
  | [], _ => true
  | _ :: _, [] => false
  | p :: ps, c :: cs => p = c && startsWithL ps cs

/-- Case-insensitive `startsWith` (both sides lowered). -/
def startsWithCIL : List Char → List Char → Bool
  | [], _ => true
  | _ :: _, [] => false
  | p :: ps, c :: cs => lowerChar p = lowerChar c && startsWithCIL ps cs

/-- Substring containment, modelling `String.prototype.includes`. -/
def hasSubstrL (p : List Char) : List Char → Bool
  | [] => startsWithL p []
  | c :: cs => startsWithL p (c :: cs) || hasSubstrL p cs

/-- `endsWith` via reversal. -/
def endsWithL (suf l : List Char) : Bool := startsWithL suf.reverse l.reverse

/-- `String.prototype.includes` at the `String` interface. -/
def strIncludes (hay sub : String) : Bool := hasSubstrL sub.toList hay.toList

/-- `hay.toLowerCase()` at the `String` interface. -/
def lowerStr (s : String) : String := String.mk (lowerL s.toList)

/-- `hay.trim()` at the `String` interface. -/
def trimStr (s : String) : String := String.mk (trimL s.toList)

/-- `s.slice(0, n)` (code-unit slicing; identical to `take` on the
character lists this pipeline produces). -/
def sliceStr (s : String) (n : Nat) : String := String.mk (s.toList.take n)

/-- `Array.prototype.join(sep)`. -/
def joinSep (sep : String) : List String → String
  | [] => ""
  | [a] => a
  | a :: b :: rest => a ++ sep ++ joinSep sep (b :: rest)

/-- `s.split(sep)` for a one-character separator (as used by
`email.split('.')`): split into the maximal list of separator-free chunks. -/
def splitOnSep (sep : Char) : List Char → List (List Char)
  | [] => [[]]
  | c :: cs =>
    let r := splitOnSep sep cs
    if c = sep then [] :: r
    else
      match r with
      | [] => [[c]]
      | h :: t => (c :: h) :: t

/-- Prefix of `l` before the first occurrence of `c` (`split(c)[0]`). -/
def takeUntilChar (c : Char) (l : List Char) : List Char := l.takeWhile (· ≠ c)

/-! ### Facts about the primitives -/

theorem upperA_lowerChar (c : Char) : upperA (lowerChar c) = false := by
  unfold lowerChar upperA
  split
  · next h =>
    simp only [upperA, Bool.and_eq_true, decide_eq_true_eq] at h
    have hval : Nat.isValidChar (c.toNat + 32) := by left; omega
    have hv : (Char.ofNat (c.toNat + 32)).toNat = c.toNat + 32 := by
      simp only [Char.ofNat]
      rw [dif_pos hval]
      rfl
    simp only [hv]
    simp only [Bool.and_eq_false_iff, decide_eq_false_iff_not]
    omega
  · next h =>
    simp only [upperA, Bool.and_eq_true, decide_eq_true_eq] at h
    simp only [Bool.and_eq_false_iff, decide_eq_false_iff_not]
    omega

theorem lowerChar_of_not_upperA {c : Char} (h : upperA c = false) : lowerChar c = c := by
  unfold lowerChar
  simp [h]

theorem lowerChar_idem (c : Char) : lowerChar (lowerChar c) = lowerChar c :=
  lowerChar_of_not_upperA (upperA_lowerChar c)

theorem lowerL_idem (l : List Char) : lowerL (lowerL l) = lowerL l := by
  unfold lowerL
  rw [List.map_map]
  apply List.map_congr_left
  intro c _
  exact lowerChar_idem c

theorem mem_lowerL_not_upperA {c : Char} {l : List Char} (h : c ∈ lowerL l) :
    upperA c = false := by
  unfold lowerL at h
  obtain ⟨d, _, rfl⟩ := List.mem_map.mp h
  exact upperA_lowerChar d

/-- The character produced by `lowerChar` is whitespace iff the input was. -/
theorem isWS_lowerChar (c : Char) : isWS (lowerChar c) = isWS c := by
  unfold lowerChar
  split
  · next h =>
    simp only [upperA, Bool.and_eq_true, decide_eq_true_eq] at h
    have hval : Nat.isValidChar (c.toNat + 32) := by left; omega
    have hv : (Char.ofNat (c.toNat + 32)).toNat = c.toNat + 32 := by
      simp only [Char.ofNat]
      rw [dif_pos hval]
      rfl
    unfold isWS
    have hfalse : ∀ d : Char, d.toNat < 65 → ((Char.ofNat (c.toNat + 32)) = d) = False := by
      intro d hd
      simp only [eq_iff_iff, iff_false]
      intro he
      have := congrArg Char.toNat he
      rw [hv] at this
      omega
    have h1 : ((Char.ofNat (c.toNat + 32)) = ' ') = False := hfalse ' ' (by decide)
    have h2 : ((Char.ofNat (c.toNat + 32)) = '\t') = False := hfalse '\t' (by decide)
    have h3 : ((Char.ofNat (c.toNat + 32)) = '\n') = False := hfalse '\n' (by decide)
    have h4 : ((Char.ofNat (c.toNat + 32)) = '\r') = False := hfalse '\r' (by decide)
    have g1 : (c = ' ') = False := by
      simp only [eq_iff_iff, iff_false]; intro he; subst he; simp at h
    have g2 : (c = '\t') = False := by
      simp only [eq_iff_iff, iff_false]; intro he; subst he; simp at h
    have g3 : (c = '\n') = False := by
      simp only [eq_iff_iff, iff_false]; intro he; subst he; simp at h
    have g4 : (c = '\r') = False := by
      simp only [eq_iff_iff, iff_false]; intro he; subst he; simp at h
    simp [h1, h2, h3, h4, g1, g2, g3, g4]
  · rfl

theorem trimL_sublist (l : List Char) : (trimL l).Sublist l := by
  unfold trimL
  have h1 : (l.dropWhile isWS).Sublist l := List.dropWhile_sublist isWS
  have h2 : ((l.dropWhile isWS).reverse.dropWhile isWS).Sublist (l.dropWhile isWS).reverse :=
    List.dropWhile_sublist isWS
  have h3 := h2.reverse
  rw [List.reverse_reverse] at h3
  exact h3.trans h1

theorem dropWhile_of_all_false {p : Char → Bool} :
    ∀ {l : List Char}, (∀ c ∈ l, p c = false) → l.dropWhile p = l := by
  intro l h
  induction l with
  | nil => rfl
  | cons c cs _ =>
    rw [List.dropWhile_cons_of_neg]
    simp [h c (by simp)]

theorem trimL_of_no_ws {l : List Char} (h : ∀ c ∈ l, isWS c = false) : trimL l = l := by
  unfold trimL
  rw [dropWhile_of_all_false h]
  rw [dropWhile_of_all_false (by intro c hc; exact h c (List.mem_reverse.mp hc))]
  exact List.reverse_reverse l

/-! ## E-mail extraction (`utils/extraction.ts`)

`extractEmails` first decodes common obfuscations, then collects candidates
from `mailto:` links, `href` attributes and the global e-mail regex
`[a-zA-Z0-9._%+-]+@[a-zA-Z0-9.-]+\.[a-zA-Z]{2,}`, filters junk patterns, and
finally validates length/TLD. Each regex is compiled to a scanner with the
same leftmost-match, global-flag semantics. -/

/-- Plain-string global replace, modelling `s.replace(/lit/g, rep)`:
non-overlapping, left to right. `fuel` bounds recursion (callers pass
`length + 1`, enough since every step consumes at least one character). -/
def replacePlainAll : Nat → List Char → List Char → List Char → List Char
  | 0, _, _, l => l
  | _ + 1, _, _, [] => []
  | fuel + 1, pat, rep, c :: cs =>
    if pat.length > 0 && startsWithL pat (c :: cs) then
      rep ++ replacePlainAll fuel pat rep ((c :: cs).drop pat.length)
    else c :: replacePlainAll fuel pat rep cs

/-- Global replace of `\s*TOK\s*` by a single character (`ci` selects the
`/i` flag), as in `.replace(/\s*\[at\]\s*/gi, '@')`. A match starts at the
first whitespace run directly preceding the token and greedily consumes the
whitespace run following it. -/
def replaceSpacedTok : Nat → Bool → List Char → Char → List Char → List Char
  | 0, _, _, _, l => l
  | _ + 1, _, _, _, [] => []
  | fuel + 1, ci, tok, rep, c :: cs =>
    let l := c :: cs
    let wsLen := (l.takeWhile isWS).length
    let rest := l.drop wsLen
    if (if ci then startsWithCIL tok rest else startsWithL tok rest) then
      let rest2 := rest.drop tok.length
      let wsLen2 := (rest2.takeWhile isWS).length
      rep :: replaceSpacedTok fuel ci tok rep (rest2.drop wsLen2)
    else c :: replaceSpacedTok fuel ci tok rep cs

/-- JS `\w` (word character) class: `[A-Za-z0-9_]`. -/
def isWordChar (c : Char) : Bool := c.isAlphanum || c = '_'

/-- `[a-zA-Z0-9]` as used by the e-mail-context callback. -/
def isAlnumA (c : Char) : Bool := c.isAlphanum

/-- The `\bat\b` replacement with its e-mail-context callback: the callback
only rewrites when the character before the match is alphanumeric, which the
word boundary forbids, so this pass is the identity on every input — it is
kept to mirror the source faithfully. `prev` tracks the previous character
for the word-boundary test. -/
def replaceAtWordBound : Nat → Option Char → List Char → List Char
  | 0, _, l => l
  | _ + 1, _, [] => []
  | fuel + 1, prev, c :: cs =>
    let l := c :: cs
    let boundaryBefore := match prev with | none => true | some p => !isWordChar p
    let boundaryAfter := match l.drop 2 with | [] => true | d :: _ => !isWordChar d
    if startsWithCIL ['a', 't'] l && boundaryBefore && boundaryAfter then
      let condBefore := match prev with | none => false | some p => isAlnumA p
      let condAfter := match l.drop 2 with | [] => false | d :: _ => isAlnumA d
      if condBefore && condAfter then
        '@' :: replaceAtWordBound fuel (some '@') (l.drop 2)
      else
        l.take 2 ++ replaceAtWordBound fuel ((l.take 2).getLast?) (l.drop 2)
    else c :: replaceAtWordBound fuel (some c) cs

/-- The obfuscation-decoding pipeline of `extractEmails`, step for step:
HTML entities, bracketed `at`/`dot` tokens (case-insensitive), whitespace
around `@`, the case-sensitive `[AT]`/`[DOT]` variants, and the
(no-op, see `replaceAtWordBound`) bare-word `at` rule. -/
def decodeObfuscations (l0 : List Char) : List Char :=
  let a1 := replacePlainAll (l0.length + 1) "&#64;".toList "@".toList l0
  let a2 := replacePlainAll (a1.length + 1) "&#46;".toList ".".toList a1
  let a3 := replacePlainAll (a2.length + 1) "&commat;".toList "@".toList a2
  let a4 := replacePlainAll (a3.length + 1) "&period;".toList ".".toList a3
  let a5 := replaceSpacedTok (a4.length + 1) true "[at]".toList '@' a4
  let a6 := replaceSpacedTok (a5.length + 1) true "(at)".toList '@' a5
  let a7 := replaceSpacedTok (a6.length + 1) true "\x7bat\x7d".toList '@' a6
  let a8 := replaceSpacedTok (a7.length + 1) false "@".toList '@' a7
  let a9 := replaceSpacedTok (a8.length + 1) true "[dot]".toList '.' a8
  let a10 := replaceSpacedTok (a9.length + 1) true "(dot)".toList '.' a9
  let a11 := replaceSpacedTok (a10.length + 1) true "\x7bdot\x7d".toList '.' a10
  let a12 := replaceSpacedTok (a11.length + 1) false "[AT]".toList '@' a11
  let a13 := replaceSpacedTok (a12.length + 1) false "[DOT]".toList '.' a12
  replaceAtWordBound (a13.length + 1) none a13

/-- Local-part character class of the e-mail regex: `[a-zA-Z0-9._%+-]`. -/
def isLocalChar (c : Char) : Bool :=
  c.isAlphanum || c = '.' || c = '_' || c = '%' || c = '+' || c = '-'

/-- Domain character class of the e-mail regex: `[a-zA-Z0-9.-]`. -/
def isDomainChar (c : Char) : Bool := c.isAlphanum || c = '.' || c = '-'

/-- Split a character list at its first `'@'`. -/
def splitOnAt : List Char → Option (List Char × List Char)
  | [] => none
  | c :: cs =>
    if c = '@' then some ([], cs)
    else (splitOnAt cs).map (fun p => (c :: p.1, p.2))

/-- Greedy-with-backtracking match of `[a-zA-Z0-9.-]+\.[a-zA-Z]{2,}` against
the maximal domain-character run `ds`: pick the rightmost dot at index
`p ≥ 1` followed by at least two letters; the match is
`ds.take p ++ '.' :: letters` and consumes `p + 1 + letters.length`
characters. -/
def domainMatch (ds : List Char) : Option (List Char × Nat) :=
  (List.range ds.length).reverse.findSome? (fun p =>
    if 1 ≤ p && ds.getD p ' ' = '.' then
      let tail := (ds.drop (p + 1)).takeWhile Char.isAlpha
      if 2 ≤ tail.length then some (ds.take p ++ '.' :: tail, p + 1 + tail.length)
      else none
    else none)

/-- Global scan for the e-mail regex
`[a-zA-Z0-9._%+-]+@[a-zA-Z0-9.-]+\.[a-zA-Z]{2,}` (models
`decoded.match(EMAIL_REGEX)`). A match is anchored at an `'@'` with a
non-empty local-character run before it and a valid domain after it;
scanning resumes after the match, or after the `'@'` on failure. -/
def emailScan : Nat → List Char → List (List Char)
  | 0, _ => []
  | fuel + 1, cs =>
    match splitOnAt cs with
    | none => []
    | some (pre, post) =>
      let loc := (pre.reverse.takeWhile isLocalChar).reverse
      if loc.isEmpty then emailScan fuel post
      else
        let ds := post.takeWhile isDomainChar
        match domainMatch ds with
        | none => emailScan fuel post
        | some (dm, consumed) => (loc ++ '@' :: dm) :: emailScan fuel (post.drop consumed)

/-- Character class `[^"'\s<>?#]` of the `mailto:` regex. -/
def mailtoChar (c : Char) : Bool :=
  !(c = '"' || c = Char.ofNat 39 || c = '<' || c = '>' || c = '?' || c = '#' || isWS c)

/-- Global scan for `/mailto:([^"'\s<>?#]+)/gi`, returning the captured
address part of each match. -/
def mailtoScan : Nat → List Char → List (List Char)
  | 0, _ => []
  | _ + 1, [] => []
  | fuel + 1, c :: cs =>
    let l := c :: cs
    if startsWithCIL "mailto:".toList l then
      let run := (l.drop 7).takeWhile mailtoChar
      if run.isEmpty then mailtoScan fuel cs
      else run :: mailtoScan fuel (l.drop (7 + run.length))
    else mailtoScan fuel cs

/-- Not a quote character (`[^"']`). -/
def notQuote (c : Char) : Bool := !(c = '"' || c = Char.ofNat 39)

/-- Global scan for `/href=["'][^"']*@[^"']*["']/gi`, returning the full
match text (attribute name, quotes and value). -/
def hrefScan : Nat → List Char → List (List Char)
  | 0, _ => []
  | _ + 1, [] => []
  | fuel + 1, c :: cs =>
    let l := c :: cs
    if startsWithCIL "href=".toList l then
      match l.drop 5 with
      | q :: rest =>
        if notQuote q then hrefScan fuel cs
        else
          let run := rest.takeWhile notQuote
          let after := rest.drop run.length
          if run.contains '@' then
            match after with
            | q2 :: after2 => ("href=".toList ++ q :: run ++ [q2]) :: hrefScan fuel after2
            | [] => hrefScan fuel cs
          else hrefScan fuel cs
      | [] => hrefScan fuel cs
    else hrefScan fuel cs

/-- `[a-f0-9]` on an already-lowercased character. -/
def hexLower (c : Char) : Bool := c.isDigit || ('a' ≤ c && c ≤ 'f')

/-- `isJunkEmail` over characters: the `JUNK_EMAIL_PATTERNS` list, all
case-insensitive, checked after lowering. -/
def isJunkEmailL (l : List Char) : Bool :=
  let e := lowerL l
  (33 ≤ e.length && (e.take 32).all hexLower && e.getD 32 ' ' = '@')
  || endsWithL "@example.com".toList e
  || endsWithL "@test.com".toList e
  || endsWithL "@localhost".toList e
  || hasSubstrL "noreply@".toList e
  || hasSubstrL "no-reply@".toList e
  || hasSubstrL "@sentry.".toList e
  || endsWithL "@wixpress.com".toList e
  || hasSubstrL ".png@".toList e
  || hasSubstrL ".jpg@".toList e
  || hasSubstrL ".gif@".toList e

/-- `isJunkEmail` at the `String` interface. -/
def isJunkEmail (s : String) : Bool := isJunkEmailL s.toList

/-- Insertion into the deduplicating `Set` (JS `Set` keeps insertion order). -/
def setAdd (l : List String) (e : String) : List String :=
  if e ∈ l then l else l ++ [e]

/-- The string stored into the set: `email.toLowerCase().trim()`. -/
def mkLowerTrim (l : List Char) : String := String.mk (trimL (lowerL l))

/-- Processing of one `mailto:` capture: strip query/fragment
(`split('?')[0].split('#')[0]`), require `'@'` and `'.'`, filter junk,
and insert lowercased. -/
def addMailto (acc : List String) (m : List Char) : List String :=
  let email := takeUntilChar '#' (takeUntilChar '?' m)
  if email.contains '@' && email.contains '.' && !isJunkEmailL email then
    setAdd acc (mkLowerTrim email)
  else acc

/-- Processing of one regex match from `href` or the standard pass:
filter junk and insert lowercased. -/
def addStd (acc : List String) (e : List Char) : List String :=
  if !isJunkEmailL e then setAdd acc (mkLowerTrim e) else acc

/-- Final validation of `extractEmails`: total length 5–254, must contain
`'@'` and `'.'`, and the final dot-separated part (the TLD) must have
length 2–10. -/
def emailFinalCheck (e : String) : Bool :=
  let l := e.toList
  if l.length < 5 || 254 < l.length then false
  else if !(l.contains '@') || !(l.contains '.') then false
  else
    let parts := splitOnSep '.' l
    let tld := (parts.getLast?).getD []
    2 ≤ tld.length && tld.length ≤ 10

/-- `extractEmails`: decode obfuscations, collect candidates from
`mailto:` links, `href` attributes and the global e-mail regex (in source
order, deduplicating case-insensitively via lowercased insertion), then
apply the final validation filter. -/
def extractEmails (textOrHtml : String) : List String :=
  if textOrHtml = "" then []
  else
    let decoded := decodeObfuscations textOrHtml.toList
    let s1 := (mailtoScan (decoded.length + 1) decoded).foldl addMailto []
    let s2 := (hrefScan (decoded.length + 1) decoded).foldl
      (fun acc m => (emailScan (m.length + 1) m).foldl addStd acc) s1
    let s3 := (emailScan (decoded.length + 1) decoded).foldl addStd s2
    s3.filter emailFinalCheck

/-! ## URL validation and content acquisition (`utils/config.ts`, `stages/acquire`) -/

/-- Transport method of an acquisition (`'http' | 'flaresolverr' | 'puppeteer'`). -/
inductive Method
  | http
  | flaresolverr
  | puppeteer
deriving DecidableEq, Repr, Inhabited

/-- `AcquiredContent`: result of fetching one URL. `scrapeTime` is wall-clock
elapsed milliseconds; being environmental it is modelled as `0`. -/
structure AcquiredContent where
  url : String
  html : String
  text : String
  method : Method
  scrapeTime : Nat
  success : Bool
  error : Option String := none
deriving DecidableEq, Repr, Inhabited

/-- The accumulated-content `Map<string, AcquiredContent>` (JS `Map`:
insertion-ordered association list; `set` on an existing key updates in
place). -/
abbrev ContentMap := List (String × AcquiredContent)

/-- `map.has(k)`. -/
def mapHas : ContentMap → String → Bool
  | [], _ => false
  | p :: rest, k => p.1 = k || mapHas rest k

/-- `map.get(k)`. -/
def mapGet : ContentMap → String → Option AcquiredContent
  | [], _ => none
  | p :: rest, k => if p.1 = k then some p.2 else mapGet rest k

/-- `map.set(k, v)`: update the entry in place when the key is present
(maps built through `mapSet` never hold duplicate keys), append otherwise. -/
def mapSet : ContentMap → String → AcquiredContent → ContentMap
  | [], k, v => [(k, v)]
  | p :: rest, k, v => if p.1 = k then (k, v) :: rest else p :: mapSet rest k v

/-- `Array.from(map.keys())`. -/
def mapKeys (m : ContentMap) : List String := m.map (fun p => p.1)

/-- `map.size`. -/
def mapSize (m : ContentMap) : Nat := m.length

/-- `ALLOWED_PROTOCOLS` (`utils/config.ts`). -/
def ALLOWED_PROTOCOLS : List String := ["http:", "https:"]

/-- `BLOCKED_URL_PATTERNS` (`utils/config.ts`), compiled from the anchored
regexes `^127\.`, `^localhost`, `^0\.0\.0\.0`, `^::1`, `^192\.168\.`,
`^10\.`, `^172\.(1[6-9]|2[0-9]|3[0-1])\.` into prefix tests. -/
def blockedHostname (h : String) : Bool :=
  startsWithL "127.".toList h.toList
  || startsWithL "localhost".toList h.toList
  || startsWithL "0.0.0.0".toList h.toList
  || startsWithL "::1".toList h.toList
  || startsWithL "192.168.".toList h.toList
  || startsWithL "10.".toList h.toList
  || (List.range 16).any (fun i =>
       startsWithL ("172." ++ toString (16 + i) ++ ".").toList h.toList)

/-- The components of a parsed URL that validation inspects. -/
structure UrlParts where
  protocol : String
  hostname : String
deriving DecidableEq, Repr

/-- The external WHATWG `URL` parser: `new URL(url)` either yields the
parsed components or throws with a message. -/
abbrev UrlParser := String → Except String UrlParts

/-- Result of `validateUrl`. -/
structure ValidationResult where
  valid : Bool
  error : Option String := none
deriving DecidableEq, Repr

/-- `validateUrl` (`utils/extraction.ts`): reject empty input, parse, check
the protocol against `ALLOWED_PROTOCOLS`, and check the lowercased hostname
against `BLOCKED_URL_PATTERNS`. -/
def validateUrl (parseURL : UrlParser) (url : String) : ValidationResult :=
  if url = "" then { valid := false, error := some "URL must be a non-empty string" }
  else
    match parseURL url with
    | .error e =>
      { valid := false, error := some ("Invalid URL format: " ++ e) }
    | .ok u =>
      if !(ALLOWED_PROTOCOLS.contains u.protocol) then
        { valid := false
          error := some ("Protocol " ++ u.protocol ++
            " is not allowed. Only http: and https: are permitted.") }
      else if blockedHostname (lowerStr u.hostname) then
        { valid := false, error := some "URL matches blocked pattern (localhost or private IP)" }
      else { valid := true }

/-- Uniform result contract of the HTTP / proxy transports
(`{success, html?, text?, error?}`). -/
structure FetchResult where
  success : Bool
  html : Option String := none
  text : Option String := none
  error : Option String := none
deriving DecidableEq, Repr

/-- The three black-box transports. A thrown exception is `.error msg`;
the browser transport returns `{html, text}` or throws. -/
structure Transport where
  httpFetch : String → Except String FetchResult
  flareSolverrFetch : String → String → Except String FetchResult
  getPageContent : String → Except String (String × String)

/-- `AcquireOptions`. -/
structure AcquireOptions where
  flareSolverrUrl : Option String := none
  skipFlareSolverr : Bool := false
  skipPuppeteer : Bool := false
  preferredMethod : Option Method := none

/-- A `tryMethod` result (`Omit<AcquiredContent, 'scrapeTime'>`). -/
structure TryResult where
  url : String
  html : String
  text : String
  method : Method
  success : Bool
  error : Option String := none
deriving DecidableEq, Repr

/-- `tryMethod` (`stages/acquire`): run one transport, wrapping its own
errors; `success` requires a truthy (non-empty) `html`. -/
def tryMethod (tp : Transport) (url : String) (method : Method)
    (flareSolverrUrl : Option String) : TryResult :=
  match method with
  | .http =>
    match tp.httpFetch url with
    | .error e => { url, html := "", text := "", method := .http, success := false, error := some e }
    | .ok r =>
      if r.success && (strVal r.html).isSome then
        { url, html := orDefault r.html "", text := orDefault r.text ""
          method := .http, success := true }
      else
        { url, html := orDefault r.html "", text := orDefault r.text ""
          method := .http, success := false
          error := some (orDefault r.error "HTTP fetch returned no content") }
  | .flaresolverr =>
    match strVal flareSolverrUrl with
    | none =>
      { url, html := "", text := "", method := .flaresolverr, success := false
        error := some "FlareSolverr URL not configured" }
    | some fsUrl =>
      match tp.flareSolverrFetch url fsUrl with
      | .error e =>
        { url, html := "", text := "", method := .flaresolverr, success := false, error := some e }
      | .ok r =>
        if r.success && (strVal r.html).isSome then
          { url, html := orDefault r.html "", text := orDefault r.text ""
            method := .flaresolverr, success := true }
        else
          { url, html := orDefault r.html "", text := orDefault r.text ""
            method := .flaresolverr, success := false
            error := some (orDefault r.error "FlareSolverr returned no content") }
  | .puppeteer =>
    match tp.getPageContent url with
    | .error e =>
      { url, html := "", text := "", method := .puppeteer, success := false, error := some e }
    | .ok (html, text) =>
      { url, html, text, method := .puppeteer, success := true }

/-- `acquireContent`'s result together with a ghost trace of the transport
methods attempted, in order (used to state "no transport call is made"). -/
structure AcquireOutcome where
  content : AcquiredContent
  attempts : List Method
deriving DecidableEq, Repr

/-- Promote a `tryMethod` result to `AcquiredContent`. -/
def toAcquired (r : TryResult) : AcquiredContent :=
  { url := r.url, html := r.html, text := r.text, method := r.method
    scrapeTime := 0, success := r.success, error := r.error }

/-- `acquireContent` (`stages/acquire`): validate the URL first and fail
fast; else try the preferred method, then HTTP, then FlareSolverr (if
configured and not skipped), then Puppeteer (unless skipped or already the
failed preferred method); if the final Puppeteer stage is skipped, return
the terminal "All acquisition methods failed" failure. -/
def acquireContentT (tp : Transport) (parseURL : UrlParser) (url : String)
    (options : AcquireOptions) : AcquireOutcome :=
  let v := validateUrl parseURL url
  if !v.valid then
    { content :=
        { url, html := "", text := "", method := .http, scrapeTime := 0
          success := false, error := some (orDefault v.error "Invalid URL") }
      attempts := [] }
  else
    let afterPreferred : Option AcquireOutcome :=
      match options.preferredMethod with
      | none => none
      | some pm =>
        let r := tryMethod tp url pm options.flareSolverrUrl
        if r.success then some { content := toAcquired r, attempts := [pm] } else none
    match afterPreferred with
    | some out => out
    | none =>
      let pref := options.preferredMethod
      let attempts0 : List Method := match pref with | none => [] | some pm => [pm]
      -- Stage 1 and 2 run only when the preferred method is not 'http';
      -- `.inl` is an early successful return, `.inr` carries the attempt
      -- trace into stage 3.
      let stage12 : AcquireOutcome ⊕ List Method :=
        if pref ≠ some Method.http then
          let httpResult := tryMethod tp url .http options.flareSolverrUrl
          if httpResult.success then
            .inl { content := toAcquired httpResult, attempts := attempts0 ++ [.http] }
          else
            if !options.skipFlareSolverr && (strVal options.flareSolverrUrl).isSome then
              let flareResult := tryMethod tp url .flaresolverr options.flareSolverrUrl
              if flareResult.success then
                .inl { content := toAcquired flareResult
                       attempts := attempts0 ++ [.http, .flaresolverr] }
              else .inr (attempts0 ++ [.http, .flaresolverr])
            else .inr (attempts0 ++ [.http])
        else .inr attempts0
      match stage12 with
      | .inl out => out
      | .inr attempts1 =>
        if !options.skipPuppeteer && pref ≠ some Method.puppeteer then
          let puppeteerResult := tryMethod tp url .puppeteer options.flareSolverrUrl
          { content := toAcquired puppeteerResult, attempts := attempts1 ++ [.puppeteer] }
        else
          { content :=
              { url, html := "", text := "", method := .http, scrapeTime := 0
                success := false, error := some "All acquisition methods failed" }
            attempts := attempts1 }

/-- `acquireContent` proper (the trace projected away). -/
def acquireContent (tp : Transport) (parseURL : UrlParser) (url : String)
    (options : AcquireOptions) : AcquiredContent :=
  (acquireContentT tp parseURL url options).content

/-! ## Product extraction (`utils/extraction.ts: extractProductsFromHtml`)

The DOM queries (cheerio) are the external "parse HTML" capability: a `Dom`
oracle answers the exact queries the source makes per candidate card. The
control flow around those queries — selector priority, link choice, name /
price fallbacks, deduplication and URL absolutization — is modelled from the
source. -/

/-- `ProductSummary` (`utils/types.ts`). -/
structure ProductSummary where
  name : String
  url : String
  price : Option String := none
deriving DecidableEq, Repr

/-- A link element as queried by the source
(`attr('href')`, `.text()`, `attr('title')`). -/
structure LinkEl where
  href : Option String := none
  text : String := ""
  title : Option String := none
deriving DecidableEq, Repr

/-- One candidate card: the queries `extractProductsFromHtml` makes of it.
`productLink` is `$el.find('a[href*="/product"], a[href*="/item"], a[href*="/p/"]').first()`,
`anyLink` is `$el.find('a[href]').first()`, and `findText sel` is
`$el.find(sel).first().text()` (`none` when the selector matches nothing). -/
structure CardEl where
  productLink : Option LinkEl := none
  anyLink : Option LinkEl := none
  findText : String → Option String

/-- The DOM oracle: `select sel` is `$(sel)` over the loaded HTML, and
`resolve href base` is `new URL(href, base).href` (`none` when the
constructor throws). -/
structure Dom where
  select : String → List CardEl
  resolve : String → String → Option String

/-- The fixed product-card selector list, in priority order. -/
def productSelectors : List String :=
  ["[class*=\"product\"]",
   "[class*=\"item\"]",
   "[class*=\"card\"]",
   "[data-product]",
   "[data-item]",
   "article",
   ".grid-item",
   ".collection-item"]

/-- The name selector list, in priority order. -/
def nameSelectors : List String :=
  ["[class*=\"title\"]",
   "[class*=\"name\"]",
   "h2",
   "h3",
   "h4",
   ".product-title",
   ".item-name"]

/-- The price selector list, in priority order. -/
def priceSelectors : List String :=
  ["[class*=\"price\"]", "[data-price]", ".amount", ".money"]

/-- The link the card contributes: the product-path link if present, else
the first `a[href]`; `none` skips the card. -/
def linkElOf (el : CardEl) : Option LinkEl :=
  match el.productLink with
  | some l => some l
  | none => el.anyLink

/-- The name-selector loop: first selector whose trimmed text is non-empty
(a matching selector with empty text leaves the running name empty and
continues). -/
def nameFromSelectors (el : CardEl) : List String → String
  | [] => ""
  | sel :: rest =>
    match el.findText sel with
    | none => nameFromSelectors el rest
    | some t =>
      let n := trimStr t
      if n ≠ "" then n else nameFromSelectors el rest

/-- Name fallback: `linkEl.text().trim() || linkEl.attr('title') || ''`. -/
def nameOf (el : CardEl) (linkEl : LinkEl) : String :=
  let n := nameFromSelectors el nameSelectors
  if n ≠ "" then n
  else
    let t := trimStr linkEl.text
    if t ≠ "" then t else orDefault linkEl.title ""

/-- The price-selector loop: stop at the first non-empty trimmed text, but a
matched empty text still overwrites the running value. -/
def priceFromSelectors (el : CardEl) : List String → Option String → Option String
  | [], acc => acc
  | sel :: rest, acc =>
    match el.findText sel with
    | none => priceFromSelectors el rest acc
    | some t =>
      let p := trimStr t
      if p ≠ "" then some p else priceFromSelectors el rest (some p)

/-- Processing of one candidate card within the `each` loop; the state is
(products so far, `seenUrls`). Note the source checks `seenUrls.has` on the
raw `href` but adds the absolutized `href`. -/
def processCard (dom : Dom) (baseUrl : Option String)
    (acc : List ProductSummary × List String) (el : CardEl) :
    List ProductSummary × List String :=
  match linkElOf el with
  | none => acc
  | some linkEl =>
    let href := orDefault linkEl.href ""
    if href = "" || href ∈ acc.2 then acc
    else
      let resolved : Option String :=
        match strVal baseUrl with
        | some b =>
          if !startsWithL "http".toList href.toList then dom.resolve href b else some href
        | none => some href
      match resolved with
      | none => acc
      | some hrefAbs =>
        let name := nameOf el linkEl
        if name = "" || name.length < 2 then acc
        else
          let price := priceFromSelectors el priceSelectors none
          (acc.1 ++ [{ name, url := hrefAbs, price }], acc.2 ++ [hrefAbs])

/-- The selector loop: run each selector's cards through `processCard`
(fresh state per selector — `products`/`seenUrls` are created once, but a
later selector only runs when the earlier ones produced nothing, in which
case nothing was added) and stop at the first selector yielding products. -/
def productsBySelector (dom : Dom) (baseUrl : Option String) (sel : String) :
    List ProductSummary :=
  ((dom.select sel).foldl (processCard dom baseUrl) ([], [])).1

/-- The selector-priority loop of `extractProductsFromHtml`. -/
def firstSelectorYield (dom : Dom) (baseUrl : Option String) : List String → List ProductSummary
  | [] => []
  | sel :: rest =>
    let ps := productsBySelector dom baseUrl sel
    if ps.length > 0 then ps else firstSelectorYield dom baseUrl rest

/-- `extractProductsFromHtml`: scan the fixed selector list in priority
order over the parsed DOM, stopping at the first selector that yields any
products. -/
def extractProductsFromHtml (dom : Dom) (html : String) (baseUrl : Option String) :
    List ProductSummary :=
  if html = "" then [] else firstSelectorYield dom baseUrl productSelectors

/-! ## Task-intent detection (`stages/extract: detectIntent`)

The keyword tests are substring `includes`; the structural cues are regexes
over the lowercased, trimmed task, compiled here into explicit scanners.
`\b` is a word boundary (`[A-Za-z0-9_]` word characters), and `.` does not
match line terminators. -/

/-- Word boundary against the previous character (`none` = string start). -/
def boundaryB : Option Char → Bool
  | none => true
  | some p => !isWordChar p

/-- Word boundary at the head of the remaining input (`[]` = string end). -/
def boundaryHead : List Char → Bool
  | [] => true
  | d :: _ => !isWordChar d

/-- `w` matches here and is followed by a word boundary (`w\b`). -/
def wordTailAt (w : List Char) (l : List Char) : Bool :=
  startsWithL w l && boundaryHead (l.drop w.length)

/-- Unanchored scan: does `p prev rest` hold at some position of `l`? -/
def scanAux (p : Option Char → List Char → Bool) : Option Char → List Char → Bool
  | prev, [] => p prev []
  | prev, c :: cs => p prev (c :: cs) || scanAux p (some c) cs

/-- Test a position predicate anywhere in `l`. -/
def regexTest (p : Option Char → List Char → Bool) (l : List Char) : Bool :=
  scanAux p none l

/-- `\bw\b` at this position. -/
def wordAt (w : List Char) (prev : Option Char) (l : List Char) : Bool :=
  boundaryB prev && wordTailAt w l

/-- `/\bw\b/.test(l)`. -/
def hasWord (w : String) (l : List Char) : Bool := regexTest (wordAt w.toList) l

/-- Line terminators that `.` does not match. -/
def isNL (c : Char) : Bool := c = '\n' || c = '\r'

/-- `.*\bw₁\b.*\bw₂\b...` continuation: each chain element is a list of
alternatives (`\b(a|b)\b`); between elements `.*` consumes only
non-line-terminator characters. `fuel` bounds the recursion. -/
def dotStarChainA : Nat → List (List (List Char)) → Option Char → List Char → Bool
  | 0, _, _, _ => false
  | _ + 1, [], _, _ => true
  | _ + 1, _ :: _, _, [] => false
  | fuel + 1, alts :: ws, prev, c :: cs =>
    (boundaryB prev && alts.any (fun w =>
      wordTailAt w (c :: cs) && dotStarChainA fuel ws w.getLast? ((c :: cs).drop w.length)))
    || (!isNL c && dotStarChainA fuel (alts :: ws) (some c) cs)

/-- `\bw₁\b.*\b(alt…)\b.*…` anchored at this position. -/
def chainAt (w1 : List Char) (rest : List (List (List Char)))
    (prev : Option Char) (l : List Char) : Bool :=
  wordAt w1 prev l &&
  dotStarChainA (l.length + rest.length + 1) rest w1.getLast? (l.drop w1.length)

/-- `\bw₁\s+(alt…)\b` anchored at this position (e.g. `\band\s+then\b`,
`\bwith\s+(their|the|its)\b`). -/
def wsPairAt (w1 : List Char) (alts : List (List Char))
    (prev : Option Char) (l : List Char) : Bool :=
  boundaryB prev && startsWithL w1 l &&
  (let rest := l.drop w1.length
   let ws := rest.takeWhile isWS
   1 ≤ ws.length && alts.any (fun w2 => wordTailAt w2 (rest.drop ws.length)))

/-- `base` matches here followed by `s?\b` (greedy optional plural). -/
def optSBoundary (base : List Char) (l : List Char) : Bool :=
  startsWithL base l &&
  (let tail := l.drop base.length
   (match tail with
    | 's' :: ds => boundaryHead ds
    | _ => false)
   || boundaryHead tail)

/-- `\b(alt₁…)\s+(alt₂…)s?\b` anchored at this position (e.g.
`\b(and|with)\s+(author|tag|…)s?\b`). -/
def wsPairOptSAt (alts1 alts2 : List (List Char))
    (prev : Option Char) (l : List Char) : Bool :=
  boundaryB prev && alts1.any (fun w1 =>
    startsWithL w1 l &&
    (let rest := l.drop w1.length
     let ws := rest.takeWhile isWS
     1 ≤ ws.length && alts2.any (fun w2 => optSBoundary w2 (rest.drop ws.length))))

/-- `\b(step|steps)\s*\d` anchored at this position. -/
def stepDigitAt (prev : Option Char) (l : List Char) : Bool :=
  let wsThenDigit := fun (r : List Char) =>
    match r.dropWhile isWS with
    | [] => false
    | d :: _ => d.isDigit
  boundaryB prev && startsWithL "step".toList l &&
  (wsThenDigit (l.drop 4)
   || (match l.drop 4 with
       | 's' :: rest => wsThenDigit rest
       | _ => false))

/-- `\b\d+\s+(alt…)s?\b` anchored at this position (`\b\d+\s+(quote|…)s?\b`). -/
def numNounAt (alts2 : List (List Char)) (prev : Option Char) (l : List Char) : Bool :=
  boundaryB prev &&
  (let ds := l.takeWhile Char.isDigit
   1 ≤ ds.length &&
   (let rest := l.drop ds.length
    let ws := rest.takeWhile isWS
    1 ≤ ws.length && alts2.any (fun w2 => optSBoundary w2 (rest.drop ws.length))))

/-- `\bpage\s+\d+\b` anchored at this position. -/
def pageNumAt (prev : Option Char) (l : List Char) : Bool :=
  boundaryB prev && startsWithL "page".toList l &&
  (let rest := l.drop 4
   let ws := rest.takeWhile isWS
   1 ≤ ws.length &&
   (let r2 := rest.drop ws.length
    let ds := r2.takeWhile Char.isDigit
    1 ≤ ds.length && boundaryHead (r2.drop ds.length)))

/-- `\s+\d+\s*(to|-)\s*\d+\b` (the tail of the page-range regex). -/
def pageRangeTail (rest : List Char) : Bool :=
  let ws := rest.takeWhile isWS
  1 ≤ ws.length &&
  (let r2 := rest.drop ws.length
   let d1 := r2.takeWhile Char.isDigit
   1 ≤ d1.length &&
   (let r3 := r2.drop d1.length
    let ws2 := r3.takeWhile isWS
    let r4 := r3.drop ws2.length
    let sepLen : Option Nat :=
      if startsWithL "to".toList r4 then some 2
      else if startsWithL "-".toList r4 then some 1
      else none
    match sepLen with
    | none => false
    | some k =>
      let r5 := r4.drop k
      let ws3 := r5.takeWhile isWS
      let r6 := r5.drop ws3.length
      let d2 := r6.takeWhile Char.isDigit
      1 ≤ d2.length && boundaryHead (r6.drop d2.length)))

/-- `\bpages?\s+\d+\s*(to|-)\s*\d+\b` anchored at this position. -/
def pageRangeAt (prev : Option Char) (l : List Char) : Bool :=
  boundaryB prev && startsWithL "page".toList l &&
  (let afterPage := l.drop 4
   (match afterPage with
    | 's' :: rest => pageRangeTail rest || pageRangeTail afterPage
    | _ => pageRangeTail afterPage))

/-- `DetectedIntent` (`stages/extract`). -/
structure DetectedIntent where
  wantsEmail : Bool
  wantsPhone : Bool
  wantsProducts : Bool
  wantsText : Bool
  wantsScreenshot : Bool
  wantsDownload : Bool
  isResearch : Bool
  isGeneral : Bool
  isComplexTask : Bool
  requiresNavigation : Bool
  wantsStructuredData : Bool
deriving DecidableEq, Repr

/-- `lowerTask.includes(s)`. -/
def inc (lt : List Char) (s : String) : Bool := hasSubstrL s.toList lt

/-- `detectIntent` (`stages/extract`): keyword / structural classification
of the lowercased, trimmed task string. -/
def detectIntent (task : String) : DetectedIntent :=
  let lt := trimL (lowerL task.toList)
  let wantsEmail :=
    inc lt "email" || inc lt "e-mail" || inc lt "contact" || inc lt "mailto"
  let wantsPhone :=
    inc lt "phone" || inc lt "telephone" || inc lt "call" || inc lt "mobile" ||
    inc lt "number"
  let wantsProducts :=
    inc lt "product" || inc lt "item" || inc lt "catalog" || inc lt "price" ||
    inc lt "shop" || inc lt "store" || inc lt "buy"
  let wantsText :=
    inc lt "text" || inc lt "content" || inc lt "article" || inc lt "read" ||
    inc lt "extract"
  let wantsScreenshot :=
    inc lt "screenshot" || inc lt "capture" || inc lt "image of" || inc lt "picture of"
  let wantsDownload :=
    inc lt "download" || inc lt "pdf" || inc lt "file" || inc lt "save"
  let isResearch :=
    inc lt "research" || inc lt "learn about" || inc lt "tell me about" ||
    inc lt "information about" || inc lt "details" || inc lt "overview" ||
    inc lt "summary"
  let isComplexTask :=
    hasWord "then" lt
    || regexTest (wsPairAt "and".toList ["then".toList]) lt
    || regexTest (chainAt "first".toList [["then".toList]]) lt
    || regexTest (chainAt "after".toList
         [["do".toList, "get".toList, "extract".toList]]) lt
    || 2 ≤ lt.count ','
    || regexTest stepDigitAt lt
    || regexTest (chainAt "all".toList [["from".toList], ["page".toList]]) lt
  let requiresNavigation :=
    inc lt "pagination" || inc lt "next page" || inc lt "next button" ||
    inc lt "follow" || inc lt "navigate" || inc lt "click" ||
    inc lt "page 2" || inc lt "page 3"
    || regexTest pageNumAt lt
    || regexTest pageRangeAt lt
  let wantsStructuredData :=
    regexTest (wsPairAt "with".toList
      ["their".toList, "the".toList, "its".toList]) lt
    || regexTest (wsPairOptSAt ["and".toList, "with".toList]
         ["author".toList, "tag".toList, "price".toList, "name".toList,
          "date".toList, "title".toList]) lt
    || regexTest (numNounAt
         ["quote".toList, "item".toList, "product".toList, "record".toList,
          "result".toList]) lt
    || regexTest (wsPairOptSAt ["all".toList]
         ["quote".toList, "item".toList, "product".toList, "record".toList,
          "result".toList, "link".toList]) lt
  let isGeneral :=
    !wantsEmail && !wantsPhone && !wantsProducts && !wantsText &&
    !wantsScreenshot && !wantsDownload && !isResearch &&
    !isComplexTask && !requiresNavigation && !wantsStructuredData
  { wantsEmail, wantsPhone, wantsProducts, wantsText, wantsScreenshot
    wantsDownload, isResearch, isGeneral, isComplexTask, requiresNavigation
    wantsStructuredData }

/-! ## Non-LLM extraction attempt (`stages/extract: tryNonLlmExtraction`) -/

/-- `ExtractionData` (`stages/extract`). -/
structure ExtractionData where
  title : Option String := none
  text : Option String := none
  emails : Option (List String) := none
  phones : Option (List String) := none
  products : Option (List ProductSummary) := none
  raw : Option String := none
deriving DecidableEq, Repr

/-- `ExtractionAttempt` (`stages/extract`). -/
structure ExtractionAttempt where
  success : Bool
  data : Option ExtractionData
  whatWasTried : List String
  reason : String
  detectedIntent : DetectedIntent
deriving DecidableEq, Repr

/-- The deterministic extraction helpers `tryNonLlmExtraction` calls. The
e-mail slot is the verified `extractEmails` model and the product slot the
verified `extractProductsFromHtml` model (see `mkExtractors`); title, text
and phone extraction are HTML-parsing / regex capabilities no claim
inspects, so theorems quantify over them. -/
structure Extractors where
  pageTitle : String → String
  textContent : String → String
  emails : String → List String
  phones : String → List String
  products : String → String → List ProductSummary

/-- The extractor record used by the pipeline: `extractEmails` and
`extractProductsFromHtml dom` instantiated with the verified models,
the HTML-parsing capabilities left as oracle parameters. -/
def mkExtractors (dom : Dom) (pageTitle textContent : String → String)
    (phones : String → List String) : Extractors :=
  { pageTitle, textContent, emails := extractEmails, phones
    products := fun html url => extractProductsFromHtml dom html (some url) }

/-- The extraction phase of `tryNonLlmExtraction`: always extract the
title, then run the intent-selected deterministic extractions, recording
every attempted method name in order; returns
(`whatWasTried`, `data`, `foundData`). -/
def nonLlmGather (ex : Extractors) (content : AcquiredContent)
    (intent : DetectedIntent) : List String × ExtractionData × Bool :=
  let tried0 : List String := ["page_title_extraction"]
  let data0 : ExtractionData := { title := some (ex.pageTitle content.html) }
  -- e-mail extraction
  let (tried1, data1, found1) :=
    if intent.wantsEmail || intent.isResearch || intent.isGeneral then
      let emails := ex.emails content.html
      if emails.length > 0 then
        (tried0 ++ ["email_regex_extraction"], { data0 with emails := some emails }, true)
      else (tried0 ++ ["email_regex_extraction"], data0, false)
    else (tried0, data0, false)
  -- phone extraction
  let (tried2, data2, found2) :=
    if intent.wantsPhone || intent.isResearch || intent.isGeneral then
      let phones := ex.phones content.text
      if phones.length > 0 then
        (tried1 ++ ["phone_regex_extraction"], { data1 with phones := some phones }, true)
      else (tried1 ++ ["phone_regex_extraction"], data1, false)
    else (tried1, data1, false)
  -- product extraction
  let (tried3, data3, found3) :=
    if intent.wantsProducts then
      let products := ex.products content.html content.url
      if products.length > 0 then
        (tried2 ++ ["product_dom_extraction"], { data2 with products := some products }, true)
      else (tried2 ++ ["product_dom_extraction"], data2, false)
    else (tried2, data2, false)
  -- text extraction
  let (tried4, data4, found4) :=
    if intent.wantsText then
      let text := ex.textContent content.html
      if text.length > 0 then
        (tried3 ++ ["text_content_extraction"], { data3 with text := some text }, true)
      else (tried3 ++ ["text_content_extraction"], data3, false)
    else (tried3, data3, false)
  let foundData := found1 || found2 || found3 || found4
  -- research/general text attachment
  if intent.isResearch || intent.isGeneral then
    (tried4 ++ ["text_content_extraction"],
     { data4 with
         text := some (if content.text ≠ "" then content.text
                       else ex.textContent content.html) },
     foundData)
  else (tried4, data4, foundData)

/-- The decision cascade of `tryNonLlmExtraction` — missing
explicitly-requested data fails with a specific reason; complex /
navigational / structured / research intents always fail onto the LLM path;
general question-tasks fail; screenshot/download tasks are redirected;
otherwise found data succeeds, and the default failure attaches the raw
text. -/
def nonLlmDecide (intent : DetectedIntent) (task : String)
    (content : AcquiredContent) (whatWasTried : List String)
    (data : ExtractionData) (foundData : Bool) : ExtractionAttempt :=
  if intent.wantsEmail && (data.emails.getD []).length = 0 then
    { success := false, data := if foundData then some data else none
      whatWasTried, reason := "No email addresses found in content"
      detectedIntent := intent }
  else if intent.wantsPhone && (data.phones.getD []).length = 0 then
    { success := false, data := if foundData then some data else none
      whatWasTried, reason := "No phone numbers found in content"
      detectedIntent := intent }
  else if intent.wantsProducts && (data.products.getD []).length = 0 then
    { success := false, data := if foundData then some data else none
      whatWasTried, reason := "No products found in content"
      detectedIntent := intent }
  else if intent.isComplexTask then
    { success := false, data := some data, whatWasTried
      reason := "Complex multi-step task requires LLM orchestration"
      detectedIntent := intent }
  else if intent.requiresNavigation then
    { success := false, data := some data, whatWasTried
      reason := "Task requires navigation/pagination which needs LLM agent"
      detectedIntent := intent }
  else if intent.wantsStructuredData then
    { success := false, data := some data, whatWasTried
      reason := "Structured data extraction with relationships requires LLM"
      detectedIntent := intent }
  else if intent.isResearch then
    { success := false, data := some data, whatWasTried
      reason := "Research task requires LLM synthesis of content"
      detectedIntent := intent }
  else if intent.isGeneral && strIncludes task "?" then
    { success := false, data := some data, whatWasTried
      reason := "Question-based task requires LLM to answer"
      detectedIntent := intent }
  else if intent.wantsScreenshot then
    { success := false, data := none, whatWasTried := ["intent_detection"]
      reason := "Screenshot task requires Puppeteer, not extraction"
      detectedIntent := intent }
  else if intent.wantsDownload then
    { success := false, data := none, whatWasTried := ["intent_detection"]
      reason := "Download task requires asset extraction, not text extraction"
      detectedIntent := intent }
  else if foundData then
    { success := true, data := some data, whatWasTried
      reason := "Successfully extracted requested data"
      detectedIntent := intent }
  else
    { success := false, data := some { text := some content.text }
      whatWasTried
      reason := "Could not extract specific data, LLM needed for interpretation"
      detectedIntent := intent }

/-- `tryNonLlmExtraction` (`stages/extract`): intent detection, the
deterministic extraction phase, then the decision cascade. -/
def tryNonLlmExtraction (ex : Extractors) (content : AcquiredContent)
    (task : String) : ExtractionAttempt :=
  let intent := detectIntent task
  let g := nonLlmGather ex content intent
  nonLlmDecide intent task content g.1 g.2.1 g.2.2

/-! ## Agent tools (`agent/tools.ts`)

Tools run against a `Network` oracle: the transports and the crawler
service may answer differently on every call, so the oracle is indexed by a
call counter (`NetState.tick`). `NetState.acqLog` is a ghost trace of the
URLs passed to `acquireContent` — one entry per network acquisition. -/

/-- `CrawledPage` (`utils/types.ts`), as the crawl tool uses it. -/
structure CrawledPage where
  url : String
  title : Option String := none
deriving DecidableEq, Repr

/-- The network world for tool execution: per-call transports, the URL
parser, the Crawl4AI service (`crawl4aiCrawl`, throwing = `.error`), and the
link-discovery HTML-parsing capability (`extractInternalLinks`). -/
structure Network where
  transport : Nat → Transport
  parseURL : UrlParser
  crawl : Nat → String → String → Nat → Except String (List CrawledPage)
  extractInternalLinks : String → String → List String

/-- Mutable network state: call counter plus the ghost acquisition log. -/
structure NetState where
  tick : Nat := 0
  acqLog : List String := []
deriving DecidableEq, Repr

/-- One `acquireContent` call against the world: consumes a tick and logs
the acquired URL. -/
def acquireM (net : Network) (st : NetState) (url : String)
    (options : AcquireOptions) : AcquiredContent × NetState :=
  (acquireContent (net.transport st.tick) net.parseURL url options,
   { tick := st.tick + 1, acqLog := st.acqLog ++ [url] })

/-- The `data` payloads the tools build (shapes of the untyped JS objects):
`{alreadyScraped, textPreview}`, `{method, textLength, textPreview}`,
`{pagesFound, pages}` and `{result}`. -/
inductive ToolData
  | scrapedCached (textPreview : String)
  | scrapedNew (method : Method) (textLength : Nat) (textPreview : String)
  | crawlPages (pagesFound : Nat) (pages : List CrawledPage)
  | completed (result : String)
deriving DecidableEq, Repr

/-- `ToolResult` (`agent/tools.ts`). -/
structure ToolResult where
  success : Bool
  data : Option ToolData := none
  content : Option AcquiredContent := none
  pages : Option (List CrawledPage) := none
  error : Option String := none
deriving DecidableEq, Repr

/-- The tool parameters the agent tools read from the LLM's untyped
`params` record (`undefined`-able). `raw` appears only in the scratchpad
entry recorded for unparseable responses. -/
structure ToolParams where
  url : Option String := none
  method : Option String := none
  maxPages : Option Nat := none
  result : Option String := none
  raw : Option String := none
deriving DecidableEq, Repr

/-- `ToolCall` (`agent/tools.ts`). -/
structure ToolCall where
  tool : String
  params : ToolParams
deriving DecidableEq, Repr

/-- The non-map part of `ToolContext` (the accumulated-content map is
threaded explicitly). -/
structure ToolCtx where
  flareSolverrUrl : Option String := none
  crawl4aiBaseUrl : Option String := none

/-- `(params.max_pages as number) || 10`. -/
def natOr (n : Option Nat) (d : Nat) : Nat :=
  match n with
  | none => d
  | some 0 => d
  | some k => k

/-- The valid `method` strings of `scrape_url`. -/
def validMethods : List String := ["http", "flaresolverr", "puppeteer"]

/-- Decode a validated method string. -/
def methodOfString (s : String) : Method :=
  if s = "flaresolverr" then .flaresolverr
  else if s = "puppeteer" then .puppeteer
  else .http

/-- `executeScrapeTool`: require `url`, validate `method`, serve cached
content (flagged `alreadyScraped`) without re-fetching, otherwise acquire
and cache only on success. -/
def executeScrapeTool (net : Network) (ctx : ToolCtx) (params : ToolParams)
    (m : ContentMap) (st : NetState) : ToolResult × ContentMap × NetState :=
  match strVal params.url with
  | none => ({ success := false, error := some "url parameter is required" }, m, st)
  | some url =>
    let method := orDefault params.method "http"
    if !(validMethods.contains method) then
      ({ success := false
         error := some ("Invalid method: " ++ method ++ ". Use one of: " ++
           joinSep ", " validMethods) }, m, st)
    else if mapHas m url then
      let existing := (mapGet m url).getD default
      ({ success := true, content := some existing
         data := some (.scrapedCached (sliceStr existing.text 500)) }, m, st)
    else
      let options : AcquireOptions :=
        { flareSolverrUrl := ctx.flareSolverrUrl
          preferredMethod := some (methodOfString method) }
      let (content, st1) := acquireM net st url options
      if content.success then
        ({ success := true, content := some content
           data := some (.scrapedNew content.method content.text.length
             (sliceStr content.text 1000)) },
         mapSet m url content, st1)
      else
        ({ success := false, error := some (orDefault content.error "Failed to scrape URL") },
         m, st1)

/-- The HTML-fallback branch of `executeCrawlLinksTool`: reuse or acquire
the page (caching only successful acquisitions), then extract same-domain
links from its HTML. -/
def crawlLinksFallback (net : Network) (ctx : ToolCtx) (url : String)
    (maxPages : Nat) (m : ContentMap) (st : NetState) :
    ToolResult × ContentMap × NetState :=
  let (content, m1, st1) :=
    match mapGet m url with
    | some c => (c, m, st)
    | none =>
      let (c, st1) := acquireM net st url { flareSolverrUrl := ctx.flareSolverrUrl }
      if c.success then (c, mapSet m url c, st1) else (c, m, st1)
  if content.html ≠ "" then
    let links := net.extractInternalLinks content.html url
    let pages := (links.take maxPages).map (fun l => { url := l : CrawledPage })
    ({ success := true, pages := some pages
       data := some (.crawlPages links.length pages) }, m1, st1)
  else
    ({ success := false, error := some "Could not crawl links from URL" }, m1, st1)

/-- `executeCrawlLinksTool`: require `url`; try the Crawl4AI service when a
base URL is configured (falling through on any failure or empty result);
else extract links from already-or-newly-acquired HTML. -/
def executeCrawlLinksTool (net : Network) (ctx : ToolCtx) (params : ToolParams)
    (m : ContentMap) (st : NetState) : ToolResult × ContentMap × NetState :=
  match strVal params.url with
  | none => ({ success := false, error := some "url parameter is required" }, m, st)
  | some url =>
    let maxPages := natOr params.maxPages 10
    match strVal ctx.crawl4aiBaseUrl with
    | some base =>
      let st1 : NetState := { tick := st.tick + 1, acqLog := st.acqLog }
      match net.crawl st.tick base url maxPages with
      | .ok pages =>
        if pages.length > 0 then
          ({ success := true, pages := some pages
             data := some (.crawlPages pages.length
               ((pages.take maxPages).map (fun p => { url := p.url, title := p.title }))) },
           m, st1)
        else crawlLinksFallback net ctx url maxPages m st1
      | .error _ => crawlLinksFallback net ctx url maxPages m st1
    | none => crawlLinksFallback net ctx url maxPages m st

/-- `executeCompleteTool`: require a truthy `result`. -/
def executeCompleteTool (params : ToolParams) : ToolResult :=
  match strVal params.result with
  | none => { success := false, error := some "result parameter is required" }
  | some r => { success := true, data := some (.completed r) }

/-- `executeTool`: dispatch on the tool name; unknown names are a reported
error, not a crash. -/
def executeTool (net : Network) (ctx : ToolCtx) (call : ToolCall)
    (m : ContentMap) (st : NetState) : ToolResult × ContentMap × NetState :=
  if call.tool = "scrape_url" then executeScrapeTool net ctx call.params m st
  else if call.tool = "crawl_links" then executeCrawlLinksTool net ctx call.params m st
  else if call.tool = "complete" then (executeCompleteTool call.params, m, st)
  else ({ success := false, error := some ("Unknown tool: " ++ call.tool) }, m, st)

/-! ## Agent executor (`utils/config.ts: executeAgent` and helpers)

The LLM chat API is external: `env.llm i` is the outcome of the `callLLM`
fetch in loop iteration `i` (`.error` = thrown or non-2xx, `.ok` = response
text), and `env.parse` is `parseLLMResponse` (`agent/prompts.ts`), treated
as an opaque two-tier parser — every theorem quantifies over it, so the
results hold for the concrete parser. The prompt builders only shape what
the oracle answers and need no embedding of their own. `forcedCompletion`
makes at most one LLM call per run, captured by `env.forcedLLM`
(`.error` = non-2xx or exception, `.ok` = possibly-empty content). -/

/-- A parsed LLM response `{thinking, action: {tool, params}}`. -/
structure ParsedResponse where
  thinking : String
  tool : String
  params : ToolParams
deriving DecidableEq, Repr

/-- The environment of one agent run. `costPerCall` is
`estimateCostPerCall(model)` — modelled from the spec: `utils/cost.ts` is
not among the sources; the spec specifies a per-call estimate looked up by
model name, constant within a run, accumulated into a running total. -/
structure AgentEnv where
  llm : Nat → Except String String
  parse : String → Option ParsedResponse
  forcedLLM : Except Unit String
  net : Network
  costPerCall : Nat

/-- Modelled from the spec: `formatCost` (`utils/cost.ts`, not among the
sources) renders the running total as a formatted currency string. -/
def formatCost (n : Nat) : String := "$" ++ toString n

/-- `ScratchpadEntry` (`agent/prompts.ts`). -/
structure ScratchpadEntry where
  iteration : Nat
  thinking : String
  action : ToolCall
  result : String
deriving DecidableEq, Repr

/-- Render a `Method` as its wire string. -/
def methodName : Method → String
  | .http => "http"
  | .flaresolverr => "flaresolverr"
  | .puppeteer => "puppeteer"

/-- Opaque model of `JSON.stringify(toolResult.data)`: the rendering feeds
only scratchpad text that no claim inspects. -/
def jsonStringify : Option ToolData → String
  | none => "undefined"
  | some (.scrapedCached tp) => "alreadyScraped:true,textPreview:" ++ tp
  | some (.scrapedNew method len tp) =>
    "method:" ++ methodName method ++ ",textLength:" ++ toString len ++ ",textPreview:" ++ tp
  | some (.crawlPages found pages) =>
    "pagesFound:" ++ toString found ++ ",pages:" ++ joinSep "," (pages.map (fun p => p.url))
  | some (.completed r) => "result:" ++ r

/-- `AgentResult` (`utils/config.ts`). -/
structure AgentResult where
  success : Bool
  text : String
  iterations : Nat
  llmCalls : Nat
  sources : List String
  estimatedCost : String
  error : Option String := none
deriving DecidableEq, Repr

/-- `AgentOptions` (`utils/config.ts`). -/
structure AgentOptions where
  maxIterations : Option Nat := none
  flareSolverrUrl : Option String := none
  crawl4aiBaseUrl : Option String := none

/-- `buildFallbackSummary`: the non-LLM summary used when the synthesis
call fails — task header, page count, and a preview or error line per
accumulated page, joined by newlines. -/
def buildFallbackSummary (task : String) (content : ContentMap) : String :=
  let parts : List String :=
    ["Task: " ++ task ++ "\n",
     "Found information from " ++ toString (mapSize content) ++ " page(s):\n"]
    ++ (content.map (fun p =>
          ["\n--- " ++ p.1 ++ " ---"] ++
          (if p.2.success && p.2.text ≠ "" then [sliceStr p.2.text 2000]
           else ["(Could not load: " ++ orDefault p.2.error "Unknown error" ++ ")"]))).flatten
  joinSep "\n" parts

/-- `forcedCompletion`: one synthesis LLM call; on error, non-2xx or an
empty trimmed response, fall back to `buildFallbackSummary`. -/
def forcedCompletion (forcedLLM : Except Unit String) (task : String)
    (content : ContentMap) : String :=
  match forcedLLM with
  | .error _ => buildFallbackSummary task content
  | .ok s =>
    let r := trimStr s
    if r = "" then buildFallbackSummary task content else r

/-- The running state of the ReAct loop. `mainCalls` is a ghost counter of
the think/act loop iterations executed (one `callLLM` each). -/
structure LoopState where
  iter : Nat
  pad : List ScratchpadEntry
  m : ContentMap
  st : NetState
  llmCalls : Nat
  totalCost : Nat
  mainCalls : Nat

/-- The executor's observable outcome: the returned `AgentResult`, the
accumulated-content map at the moment of return (ghost), and the think/act
iteration count (ghost). -/
structure AgentOutcome where
  result : AgentResult
  finalMap : ContentMap
  mainCalls : Nat

/-- The `for (iteration = 1; iteration <= maxIterations; ...)` loop of
`executeAgent`, with `fuel = maxIterations - iteration + 1` remaining trips.
Fuel `0` is the loop exit: forced completion with one extra LLM call. A
`callLLM` failure is the uncaught exception caught by the surrounding
`try`, yielding the failure result with `iterations = scratchpad.length`.
An unparseable response logs a scratchpad error entry and continues. A
`complete` action returns immediately — via forced synthesis when its
`result` is blank. Any other action runs `executeTool`, appends a
scratchpad entry, and continues. -/
def agentLoop (env : AgentEnv) (ctx : ToolCtx) (task : String) (maxIter : Nat) :
    Nat → LoopState → AgentOutcome
  | 0, s =>
    { result :=
        { success := true
          text := forcedCompletion env.forcedLLM task s.m
          iterations := maxIter
          llmCalls := s.llmCalls + 1
          sources := mapKeys s.m
          estimatedCost := formatCost (s.totalCost + env.costPerCall) }
      finalMap := s.m
      mainCalls := s.mainCalls }
  | fuel + 1, s =>
    let llmCalls := s.llmCalls + 1
    let totalCost := s.totalCost + env.costPerCall
    let mainCalls := s.mainCalls + 1
    match env.llm s.iter with
    | .error msg =>
      { result :=
          { success := false, text := "", iterations := s.pad.length
            llmCalls, sources := mapKeys s.m
            estimatedCost := formatCost totalCost, error := some msg }
        finalMap := s.m, mainCalls }
    | .ok rsp =>
      match env.parse rsp with
      | none =>
        let entry : ScratchpadEntry :=
          { iteration := s.iter, thinking := "Failed to parse response"
            action := { tool := "error", params := { raw := some (sliceStr rsp 200) } }
            result := "Invalid response format" }
        agentLoop env ctx task maxIter fuel
          { s with iter := s.iter + 1, pad := s.pad ++ [entry]
                   llmCalls := llmCalls, totalCost := totalCost, mainCalls := mainCalls }
      | some p =>
        if p.tool = "complete" then
          let result := p.params.result.getD ""
          if trimStr result = "" then
            { result :=
                { success := true
                  text := forcedCompletion env.forcedLLM task s.m
                  iterations := s.iter
                  llmCalls := llmCalls + 1
                  sources := mapKeys s.m
                  estimatedCost := formatCost (totalCost + env.costPerCall) }
              finalMap := s.m, mainCalls }
          else
            { result :=
                { success := true, text := result, iterations := s.iter
                  llmCalls, sources := mapKeys s.m
                  estimatedCost := formatCost totalCost }
              finalMap := s.m, mainCalls }
        else
          let step := executeTool env.net ctx { tool := p.tool, params := p.params } s.m s.st
          let entry : ScratchpadEntry :=
            { iteration := s.iter, thinking := p.thinking
              action := { tool := p.tool, params := p.params }
              result := if step.1.success then sliceStr (jsonStringify step.1.data) 500
                        else "Error: " ++ step.1.error.getD "undefined" }
          agentLoop env ctx task maxIter fuel
            { iter := s.iter + 1, pad := s.pad ++ [entry], m := step.2.1, st := step.2.2
              llmCalls := llmCalls, totalCost := totalCost, mainCalls := mainCalls }

/-- `executeAgent` with ghost observables. The initial map is seeded with
the Stage-1 content; `nonLlmAttempt` (and the prompt builders it feeds) only
shape the prompts, whose answers the `env.llm` oracle provides. -/
def executeAgentT (env : AgentEnv) (task : String) (initialContent : AcquiredContent)
    (nonLlmAttempt : ExtractionAttempt) (options : AgentOptions) : AgentOutcome :=
  let maxIterations := natOr options.maxIterations 5
  let ctx : ToolCtx :=
    { flareSolverrUrl := options.flareSolverrUrl
      crawl4aiBaseUrl := options.crawl4aiBaseUrl }
  let _ := nonLlmAttempt
  agentLoop env ctx task maxIterations maxIterations
    { iter := 1, pad := [], m := mapSet [] initialContent.url initialContent
      st := {}, llmCalls := 0, totalCost := 0, mainCalls := 0 }

/-- `executeAgent` proper (ghost observables projected away). -/
def executeAgent (env : AgentEnv) (task : String) (initialContent : AcquiredContent)
    (nonLlmAttempt : ExtractionAttempt) (options : AgentOptions) : AgentResult :=
  (executeAgentT env task initialContent nonLlmAttempt options).result

/-! ## Shared helper lemmas -/

theorem mem_takeWhile_pred {α : Type} {p : α → Bool} :
    ∀ {l : List α} {c : α}, c ∈ l.takeWhile p → p c = true := by
  intro l
  induction l with
  | nil => intro c hc; simp [List.takeWhile] at hc
  | cons a as ih =>
    intro c hc
    rw [List.takeWhile_cons] at hc
    by_cases ha : p a = true
    · rw [if_pos ha] at hc
      rcases List.mem_cons.mp hc with h | h
      · exact h ▸ ha
      · exact ih h
    · rw [if_neg ha] at hc
      simp at hc

theorem mem_setAdd {acc : List String} {x e : String} (h : e ∈ setAdd acc x) :
    e ∈ acc ∨ e = x := by
  unfold setAdd at h
  split at h
  · exact Or.inl h
  · rcases List.mem_append.mp h with h | h
    · exact Or.inl h
    · simp at h; exact Or.inr h

theorem setAdd_nodup {acc : List String} {x : String} (h : acc.Nodup) :
    (setAdd acc x).Nodup := by
  unfold setAdd
  split
  · exact h
  · next hx =>
    rw [List.nodup_append]
    refine ⟨h, List.nodup_singleton x, ?_⟩
    intro a ha hax
    rw [List.mem_singleton] at hax
    exact hx (hax ▸ ha)

/-- Reading a JS-`Map` at the key just written. -/
theorem mapGet_mapSet_same (m : ContentMap) (k : String) (v : AcquiredContent) :
    mapGet (mapSet m k v) k = some v := by
  induction m with
  | nil => simp [mapSet, mapGet]
  | cons p rest ih =>
    unfold mapSet
    by_cases hp : p.1 = k
    · simp [hp, mapGet]
    · simp only [if_neg hp]
      unfold mapGet
      simp [hp, ih]

/-- `set` leaves other keys unchanged. -/
theorem mapGet_mapSet_ne (m : ContentMap) (k k2 : String) (v : AcquiredContent)
    (h : k2 ≠ k) : mapGet (mapSet m k v) k2 = mapGet m k2 := by
  induction m with
  | nil =>
    have h1 : ¬(k = k2) := fun he => h he.symm
    simp [mapSet, mapGet, h1]
  | cons p rest ih =>
    unfold mapSet
    by_cases hp : p.1 = k
    · simp only [if_pos hp]
      unfold mapGet
      have h1 : ¬((k, v).1 = k2) := fun he => h he.symm
      have h2 : ¬(p.1 = k2) := fun he => h (by rw [← he, hp])
      simp [h1, h2]
    · simp only [if_neg hp]
      unfold mapGet
      by_cases hp2 : p.1 = k2
      · simp [hp2]
      · simp [hp2, ih]

/-- After `set`, the key is present. -/
theorem mapHas_mapSet_same (m : ContentMap) (k : String) (v : AcquiredContent) :
    mapHas (mapSet m k v) k = true := by
  induction m with
  | nil => simp [mapSet, mapHas]
  | cons p rest ih =>
    unfold mapSet
    by_cases hp : p.1 = k
    · simp [hp, mapHas]
    · simp only [if_neg hp]
      unfold mapHas
      simp [hp, ih]

/-! ## Claim C5 — invalid URLs fail fast with no transport attempt -/

/-- **C5.** For every URL that fails validation, `acquireContent` returns
immediately with `success = false`, empty `html` and `text`, and the
descriptive validation error, and its attempt trace is empty — no HTTP,
proxy, or browser transport is invoked. -/
theorem C5_validation_fails_fast (tp : Transport) (parseURL : UrlParser)
    (url : String) (options : AcquireOptions)
    (h : (validateUrl parseURL url).valid = false) :
    acquireContentT tp parseURL url options =
      { content :=
          { url := url, html := "", text := "", method := .http, scrapeTime := 0
            success := false
            error := some (orDefault (validateUrl parseURL url).error "Invalid URL") }
        attempts := [] } := by
  unfold acquireContentT
  simp only [h, Bool.not_false, if_true]

/-- Witness for C5: `http://localhost/admin` (hostname matching the
`^localhost` blocked pattern) is rejected without any transport attempt. -/
def tpProbe : Transport :=
  { httpFetch := fun _ => .ok { success := true, html := some "<html>", text := some "hi" }
    flareSolverrFetch := fun _ _ => .ok { success := true, html := some "<html>" }
    getPageContent := fun _ => .ok ("<html>", "hi") }

/-- A URL parser answering the concrete URLs used in witnesses. -/
def parseLocalhost : UrlParser := fun _ =>
  .ok { protocol := "http:", hostname := "localhost" }

theorem C5_validation_fails_fast_witness :
    (validateUrl parseLocalhost "http://localhost/admin").valid = false ∧
    acquireContentT tpProbe parseLocalhost "http://localhost/admin" {} =
      { content :=
          { url := "http://localhost/admin", html := "", text := ""
            method := .http, scrapeTime := 0, success := false
            error := some "URL matches blocked pattern (localhost or private IP)" }
        attempts := [] } := by
  refine ⟨by decide, ?_⟩
  have h := C5_validation_fails_fast tpProbe parseLocalhost "http://localhost/admin" {}
    (by decide)
  rw [h]
  decide

/-! ## Claim C4 — error reporting when every transport fails (corrected)

The claim says a fully failed fallback chain always reports
`"All acquisition methods failed"`. In the source, that string is returned
only when the final Puppeteer stage is *skipped* (`skipPuppeteer`, or
Puppeteer was the already-failed preferred method); when Puppeteer is
attempted last and fails, its own error is returned verbatim. -/

/-- A transport world where every method fails: HTTP reports a connection
error, FlareSolverr is unreachable, and the browser throws. -/
def tpAllFail : Transport :=
  { httpFetch := fun _ => .ok { success := false, error := some "HTTP 503" }
    flareSolverrFetch := fun _ _ => .error "FlareSolverr down"
    getPageContent := fun _ => .error "browser crashed" }

/-- A URL parser accepting everything as a plain public HTTPS host. -/
def parsePublic : UrlParser := fun _ =>
  .ok { protocol := "https:", hostname := "shop.example.com" }

/-- **C4 counterexample.** With default options and every transport failing,
the chain attempts HTTP then Puppeteer, both fail, and the returned error is
the Puppeteer failure message — not `"All acquisition methods failed"`. -/
theorem C4_counterexample :
    (acquireContentT tpAllFail parsePublic "https://shop.example.com/" {}).attempts =
        [Method.http, Method.puppeteer] ∧
    (acquireContentT tpAllFail parsePublic "https://shop.example.com/" {}).content.success
        = false ∧
    (acquireContentT tpAllFail parsePublic "https://shop.example.com/" {}).content.error =
        some "browser crashed" ∧
    (acquireContentT tpAllFail parsePublic "https://shop.example.com/" {}).content.error ≠
        some "All acquisition methods failed" := by
  refine ⟨by decide, by decide, by decide, by decide⟩

/-- Each `tryMethod` outcome either succeeds or carries an error message. -/
theorem tryMethod_cases (tp : Transport) (url : String) (mth : Method)
    (fs : Option String) :
    (tryMethod tp url mth fs).success = true ∨
    (tryMethod tp url mth fs).error.isSome = true := by
  unfold tryMethod
  cases mth <;> (repeat' split) <;> simp

/-- **C4 (amended).** On a valid URL, whenever the whole chain fails
(`success = false`, i.e. every attempted transport failed), an error is
always populated; it is exactly `"All acquisition methods failed"` whenever
the final Puppeteer stage was skipped (`skipPuppeteer` set, or Puppeteer was
the already-failed preferred method). Otherwise the failing Puppeteer
attempt's own message is returned (see the counterexample). -/
theorem C4_all_methods_failed_amended (tp : Transport) (parseURL : UrlParser)
    (url : String) (options : AcquireOptions)
    (hv : (validateUrl parseURL url).valid = true)
    (hfail : (acquireContentT tp parseURL url options).content.success = false) :
    (acquireContentT tp parseURL url options).content.error.isSome = true ∧
    ((options.skipPuppeteer = true ∨ options.preferredMethod = some Method.puppeteer) →
      (acquireContentT tp parseURL url options).content.error =
        some "All acquisition methods failed") := by
  simp only [acquireContentT, hv, Bool.not_true, Bool.false_eq_true, if_false] at hfail ⊢
  constructor
  · split at hfail
    · next out heq =>
      split at heq
      · simp at heq
      · split at heq
        · next hsucc =>
          simp only [Option.some.injEq] at heq
          subst heq
          simp only [toAcquired] at hfail
          simp [hfail] at hsucc
        · simp at heq
    · next heq =>
      split at hfail
      · next out2 heq2 =>
        split at heq2
        · split at heq2
          · next hsucc =>
            simp only [Sum.inl.injEq] at heq2
            subst heq2
            simp only [toAcquired] at hfail
            simp [hfail] at hsucc
          · split at heq2
            · split at heq2
              · next hsucc =>
                simp only [Sum.inl.injEq] at heq2
                subst heq2
                simp only [toAcquired] at hfail
                simp [hfail] at hsucc
              · simp at heq2
            · simp at heq2
        · simp at heq2
      · next att2 heq2 =>
        split
        · next hc =>
          rcases tryMethod_cases tp url .puppeteer options.flareSolverrUrl with hs | he
          · simp only [hc, if_true, toAcquired] at hfail
            rw [hfail] at hs
            simp at hs
          · simpa [toAcquired] using he
        · simp
  · intro hcase
    have hcond :
        (!options.skipPuppeteer &&
          decide (options.preferredMethod ≠ some Method.puppeteer)) = false := by
      rcases hcase with hc | hc
      · simp [hc]
      · simp [hc]
    split at hfail
    · next out heq =>
      split at heq
      · simp at heq
      · split at heq
        · next hsucc =>
          simp only [Option.some.injEq] at heq
          subst heq
          simp only [toAcquired] at hfail
          simp [hfail] at hsucc
        · simp at heq
    · next heq =>
      split at hfail
      · next out2 heq2 =>
        split at heq2
        · split at heq2
          · next hsucc =>
            simp only [Sum.inl.injEq] at heq2
            subst heq2
            simp only [toAcquired] at hfail
            simp [hfail] at hsucc
          · split at heq2
            · split at heq2
              · next hsucc =>
                simp only [Sum.inl.injEq] at heq2
                subst heq2
                simp only [toAcquired] at hfail
                simp [hfail] at hsucc
              · simp at heq2
            · simp at heq2
        · simp at heq2
      · next att2 heq2 =>
        split
        · next hc =>
          rw [hcond] at hc
          simp at hc
        · rfl

/-- Witness for the amended C4: with `skipPuppeteer` set and HTTP failing,
the chain reports exactly `"All acquisition methods failed"`. -/
theorem C4_all_methods_failed_amended_witness :
    (validateUrl parsePublic "https://shop.example.com/" ).valid = true ∧
    (acquireContentT tpAllFail parsePublic "https://shop.example.com/"
        { skipPuppeteer := true }).content.success = false ∧
    (acquireContentT tpAllFail parsePublic "https://shop.example.com/"
        { skipPuppeteer := true }).content.error.isSome = true ∧
    (acquireContentT tpAllFail parsePublic "https://shop.example.com/"
        { skipPuppeteer := true }).content.error =
      some "All acquisition methods failed" := by
  have h := C4_all_methods_failed_amended tpAllFail parsePublic
    "https://shop.example.com/" { skipPuppeteer := true } (by decide) (by decide)
  exact ⟨by decide, by decide, h.1, h.2 (Or.inl rfl)⟩

/-! ## Claim C10 — tools cache only successful acquisitions -/

/-- Resolve a read after a `set`: the old binding or exactly the new value. -/
theorem mapGet_mapSet_cases {m : ContentMap} {u k : String} {c v : AcquiredContent}
    (h : mapGet (mapSet m u c) k = some v) : mapGet m k = some v ∨ v = c := by
  by_cases hk : k = u
  · subst hk
    rw [mapGet_mapSet_same] at h
    exact Or.inr (Option.some.injEq .. ▸ h.symm)
  · rw [mapGet_mapSet_ne m u k c hk] at h
    exact Or.inl h

/-- Map entries added by `executeScrapeTool` have `success = true`. -/
theorem executeScrapeTool_cache (net : Network) (ctx : ToolCtx) (params : ToolParams)
    (m : ContentMap) (st : NetState) (k : String) (v : AcquiredContent)
    (h : mapGet (executeScrapeTool net ctx params m st).2.1 k = some v) :
    mapGet m k = some v ∨ v.success = true := by
  unfold executeScrapeTool at h
  dsimp only [acquireM] at h
  repeat' split at h
  all_goals
    first
    | exact Or.inl h
    | (rcases mapGet_mapSet_cases h with hold | hv
       · exact Or.inl hold
       · subst hv
         exact Or.inr (by assumption))

/-- Map entries added by `executeCrawlLinksTool` have `success = true`. -/
theorem executeCrawlLinksTool_cache (net : Network) (ctx : ToolCtx) (params : ToolParams)
    (m : ContentMap) (st : NetState) (k : String) (v : AcquiredContent)
    (h : mapGet (executeCrawlLinksTool net ctx params m st).2.1 k = some v) :
    mapGet m k = some v ∨ v.success = true := by
  have fallback : ∀ url maxPages st0,
      mapGet (crawlLinksFallback net ctx url maxPages m st0).2.1 k = some v →
      mapGet m k = some v ∨ v.success = true := by
    intro url maxPages st0 hf
    unfold crawlLinksFallback at hf
    dsimp only [acquireM] at hf
    repeat' split at hf
    all_goals
      first
      | exact Or.inl hf
      | (rcases mapGet_mapSet_cases hf with hold | hv
         · exact Or.inl hold
         · subst hv
           exact Or.inr (by assumption))
  unfold executeCrawlLinksTool at h
  dsimp only at h
  repeat' split at h
  all_goals first
    | exact Or.inl h
    | exact fallback _ _ _ h

/-- **C10.** Every entry the agent tools add to the accumulated-content map
has `success = true` (a failed acquisition is never cached), and a
`scrape_url` call for an uncached URL whose acquisition fails leaves the map
unchanged and logs one network acquisition — so an immediately repeated call
performs a fresh acquisition instead of returning a cached failure. -/
theorem C10_tools_cache_only_success :
    (∀ (net : Network) (ctx : ToolCtx) (call : ToolCall) (m : ContentMap)
       (st : NetState) (k : String) (v : AcquiredContent),
       mapGet (executeTool net ctx call m st).2.1 k = some v →
       mapGet m k = some v ∨ v.success = true)
  ∧ (∀ (net : Network) (ctx : ToolCtx) (params : ToolParams) (m : ContentMap)
       (st : NetState) (url : String),
       strVal params.url = some url →
       validMethods.contains (orDefault params.method "http") = true →
       mapHas m url = false →
       (executeScrapeTool net ctx params m st).1.success = false →
       (executeScrapeTool net ctx params m st).2.1 = m ∧
       (executeScrapeTool net ctx params m st).2.2.acqLog = st.acqLog ++ [url] ∧
       (executeScrapeTool net ctx params
          (executeScrapeTool net ctx params m st).2.1
          (executeScrapeTool net ctx params m st).2.2).2.2.acqLog
         = st.acqLog ++ [url, url]) := by
  constructor
  · intro net ctx call m st k v h
    unfold executeTool at h
    split at h
    · exact executeScrapeTool_cache net ctx call.params m st k v h
    · split at h
      · exact executeCrawlLinksTool_cache net ctx call.params m st k v h
      · split at h
        · exact Or.inl h
        · exact Or.inl h
  · intro net ctx params m st url hurl hmeth hhas hfail
    have hred : ∀ st0 : NetState,
        executeScrapeTool net ctx params m st0 =
          (let content := acquireContent (net.transport st0.tick) net.parseURL url
              { flareSolverrUrl := ctx.flareSolverrUrl
                preferredMethod := some (methodOfString (orDefault params.method "http")) };
           let st1 : NetState := { tick := st0.tick + 1, acqLog := st0.acqLog ++ [url] };
           if content.success = true then
             ({ success := true, content := some content
                data := some (.scrapedNew content.method content.text.length
                  (sliceStr content.text 1000)) },
              mapSet m url content, st1)
           else
             ({ success := false
                error := some (orDefault content.error "Failed to scrape URL") }, m, st1)) := by
      intro st0
      unfold executeScrapeTool
      rw [hurl]
      simp only [hmeth, Bool.not_true, Bool.false_eq_true, if_false, hhas, acquireM]
    rw [hred] at hfail
    dsimp only at hfail
    by_cases hs :
        (acquireContent (net.transport st.tick) net.parseURL url
          { flareSolverrUrl := ctx.flareSolverrUrl
            preferredMethod := some (methodOfString (orDefault params.method "http")) }).success
          = true
    · rw [if_pos hs] at hfail
      simp at hfail
    · rw [if_neg hs] at hfail
      rw [hred st]
      dsimp only
      rw [if_neg hs]
      refine ⟨rfl, rfl, ?_⟩
      rw [hred]
      dsimp only
      split
      · simp
      · simp

/-- Evaluation of `executeScrapeTool` on a present `url`, a valid `method`
and an uncached URL: one acquisition, cached only on success. -/
theorem executeScrapeTool_uncached (net : Network) (ctx : ToolCtx) (params : ToolParams)
    (m : ContentMap) (st0 : NetState) (url : String)
    (hurl : strVal params.url = some url)
    (hmeth : validMethods.contains (orDefault params.method "http") = true)
    (hhas : mapHas m url = false) :
    executeScrapeTool net ctx params m st0 =
      (let content := acquireContent (net.transport st0.tick) net.parseURL url
          { flareSolverrUrl := ctx.flareSolverrUrl
            preferredMethod := some (methodOfString (orDefault params.method "http")) };
       let st1 : NetState := { tick := st0.tick + 1, acqLog := st0.acqLog ++ [url] };
       if content.success = true then
         ({ success := true, content := some content
            data := some (.scrapedNew content.method content.text.length
              (sliceStr content.text 1000)) },
          mapSet m url content, st1)
       else
         ({ success := false
            error := some (orDefault content.error "Failed to scrape URL") }, m, st1)) := by
  unfold executeScrapeTool
  rw [hurl]
  simp only [hmeth, Bool.not_true, Bool.false_eq_true, if_false, hhas, acquireM]

/-- A network world where every transport succeeds. -/
def netProbe : Network :=
  { transport := fun _ => tpProbe
    parseURL := parsePublic
    crawl := fun _ _ _ _ => .error "no crawler configured"
    extractInternalLinks := fun _ _ => [] }

/-- A network world where every transport fails. -/
def netFail : Network :=
  { transport := fun _ => tpAllFail
    parseURL := parsePublic
    crawl := fun _ _ _ _ => .error "no crawler configured"
    extractInternalLinks := fun _ _ => [] }

/-- The `scrape_url` parameters used by the concrete tool scenarios. -/
def scrapeParams : ToolParams := { url := some "https://shop.example.com/" }

/-- The content `netProbe` serves for the scenario URL. -/
def probeContent : AcquiredContent :=
  { url := "https://shop.example.com/", html := "<html>", text := "hi"
    method := .http, scrapeTime := 0, success := true, error := none }

/-- Witness for C10: a successful scrape caches content with
`success = true`, and after a failed scrape of an uncached URL the map is
unchanged and a repeated call logs a second network acquisition. -/
theorem C10_tools_cache_only_success_witness :
    probeContent.success = true ∧
    (executeScrapeTool netFail {} scrapeParams [] {}).2.1 = [] ∧
    (executeScrapeTool netFail {} scrapeParams [] {}).2.2.acqLog =
      ["https://shop.example.com/"] ∧
    (executeScrapeTool netFail {} scrapeParams
        (executeScrapeTool netFail {} scrapeParams [] {}).2.1
        (executeScrapeTool netFail {} scrapeParams [] {}).2.2).2.2.acqLog =
      ["https://shop.example.com/", "https://shop.example.com/"] := by
  have ha := C10_tools_cache_only_success.1 netProbe {}
    { tool := "scrape_url", params := scrapeParams } [] {} "https://shop.example.com/"
    probeContent (by decide)
  have hb := C10_tools_cache_only_success.2 netFail {} scrapeParams [] {}
    "https://shop.example.com/" (by decide) (by decide) (by decide) (by decide)
  refine ⟨ha.resolve_left (by decide), hb.1, ?_, ?_⟩
  · simpa using hb.2.1
  · simpa using hb.2.2

/-! ## Claim C6 — `scrape_url` idempotence (corrected)

The claim says two `scrape_url` calls for the same URL always perform
exactly one network acquisition, the second returning the cached content.
That only holds when the first acquisition succeeds: a failed acquisition
is not cached (see C10), so the second call re-acquires — two network
acquisitions and no `alreadyScraped` answer. -/

/-- **C6 counterexample.** With every transport failing, two `scrape_url`
calls for the same URL perform two network acquisitions, and the second
call's data carries no `alreadyScraped` flag (it is a fresh failure). -/
theorem C6_counterexample :
    (executeScrapeTool netFail {} scrapeParams
        (executeScrapeTool netFail {} scrapeParams [] {}).2.1
        (executeScrapeTool netFail {} scrapeParams [] {}).2.2).2.2.acqLog =
      ["https://shop.example.com/", "https://shop.example.com/"] ∧
    (executeScrapeTool netFail {} scrapeParams
        (executeScrapeTool netFail {} scrapeParams [] {}).2.1
        (executeScrapeTool netFail {} scrapeParams [] {}).2.2).1.data = none ∧
    (executeScrapeTool netFail {} scrapeParams
        (executeScrapeTool netFail {} scrapeParams [] {}).2.1
        (executeScrapeTool netFail {} scrapeParams [] {}).2.2).1.success = false := by
  refine ⟨by decide, by decide, by decide⟩

/-- **C6 (amended).** Within one agent run, if `scrape_url` is called for an
uncached URL and its acquisition *succeeds*, the two calls together perform
exactly one network acquisition: the second call finds the URL in the
accumulated-content map and returns the cached content with
`alreadyScraped` data, leaving map and network state untouched. -/
theorem C6_scrape_idempotent_amended (net : Network) (ctx : ToolCtx)
    (params : ToolParams) (m : ContentMap) (st : NetState) (url : String)
    (hurl : strVal params.url = some url)
    (hmeth : validMethods.contains (orDefault params.method "http") = true)
    (hhas : mapHas m url = false)
    (hsucc : (executeScrapeTool net ctx params m st).1.success = true) :
    (executeScrapeTool net ctx params m st).2.2.acqLog = st.acqLog ++ [url] ∧
    (executeScrapeTool net ctx params
        (executeScrapeTool net ctx params m st).2.1
        (executeScrapeTool net ctx params m st).2.2).2.1
      = (executeScrapeTool net ctx params m st).2.1 ∧
    (executeScrapeTool net ctx params
        (executeScrapeTool net ctx params m st).2.1
        (executeScrapeTool net ctx params m st).2.2).2.2
      = (executeScrapeTool net ctx params m st).2.2 ∧
    (executeScrapeTool net ctx params
        (executeScrapeTool net ctx params m st).2.1
        (executeScrapeTool net ctx params m st).2.2).1.success = true ∧
    (∃ c, mapGet (executeScrapeTool net ctx params m st).2.1 url = some c ∧
      (executeScrapeTool net ctx params
          (executeScrapeTool net ctx params m st).2.1
          (executeScrapeTool net ctx params m st).2.2).1.content = some c ∧
      (executeScrapeTool net ctx params
          (executeScrapeTool net ctx params m st).2.1
          (executeScrapeTool net ctx params m st).2.2).1.data =
        some (.scrapedCached (sliceStr c.text 500))) := by
  rw [executeScrapeTool_uncached net ctx params m st url hurl hmeth hhas] at hsucc ⊢
  dsimp only at hsucc ⊢
  by_cases hs :
      (acquireContent (net.transport st.tick) net.parseURL url
        { flareSolverrUrl := ctx.flareSolverrUrl
          preferredMethod := some (methodOfString (orDefault params.method "http")) }).success
        = true
  · rw [if_pos hs] at hsucc ⊢
    set c := acquireContent (net.transport st.tick) net.parseURL url
      { flareSolverrUrl := ctx.flareSolverrUrl
        preferredMethod := some (methodOfString (orDefault params.method "http")) } with hc
    have hhas2 : mapHas (mapSet m url c) url = true := mapHas_mapSet_same m url c
    have hget2 : mapGet (mapSet m url c) url = some c := mapGet_mapSet_same m url c
    have hsecond :
        executeScrapeTool net ctx params (mapSet m url c)
          { tick := st.tick + 1, acqLog := st.acqLog ++ [url] } =
        ({ success := true, content := some c
           data := some (.scrapedCached (sliceStr c.text 500)) },
         mapSet m url c, { tick := st.tick + 1, acqLog := st.acqLog ++ [url] }) := by
      unfold executeScrapeTool
      rw [hurl]
      simp only [hmeth, Bool.not_true, Bool.false_eq_true, if_false, hhas2, if_true, hget2]
      rfl
    rw [hsecond]
    exact ⟨rfl, rfl, rfl, rfl, c, hget2, rfl, rfl⟩
  · rw [if_neg hs] at hsucc
    simp at hsucc

/-- Witness for the amended C6: with a succeeding transport, the first call
acquires once, the second is served from the cache. -/
theorem C6_scrape_idempotent_amended_witness :
    (executeScrapeTool netProbe {} scrapeParams [] {}).2.2.acqLog =
      ["https://shop.example.com/"] ∧
    (executeScrapeTool netProbe {} scrapeParams
        (executeScrapeTool netProbe {} scrapeParams [] {}).2.1
        (executeScrapeTool netProbe {} scrapeParams [] {}).2.2).2.2
      = (executeScrapeTool netProbe {} scrapeParams [] {}).2.2 ∧
    (executeScrapeTool netProbe {} scrapeParams
        (executeScrapeTool netProbe {} scrapeParams [] {}).2.1
        (executeScrapeTool netProbe {} scrapeParams [] {}).2.2).1.data =
      some (.scrapedCached "hi") := by
  have h := C6_scrape_idempotent_amended netProbe {} scrapeParams [] {}
    "https://shop.example.com/" (by decide) (by decide) (by decide) (by decide)
  refine ⟨by simpa using h.1, h.2.2.1, ?_⟩
  obtain ⟨c, hget, _, hdata⟩ := h.2.2.2.2
  have hc : c = probeContent := by
    have : mapGet (executeScrapeTool netProbe {} scrapeParams [] {}).2.1
        "https://shop.example.com/" = some probeContent := by decide
    rw [this] at hget
    exact (Option.some.injEq .. ▸ hget).symm
  rw [hdata, hc]
  decide

/-! ## Claim C8 — complexity flags force the LLM path -/

set_option maxHeartbeats 2000000 in
/-- **C8.** Whenever `detectIntent` flags a task as complex, navigational,
structured-data or research, `tryNonLlmExtraction` fails (for every
extractor behaviour, i.e. even when deterministic extraction found data),
forcing the task onto the LLM path; and the example task
"First get the product list, then email me a summary" is flagged complex
via its sequencing word. -/
theorem C8_complexity_flags_force_llm :
    (∀ (ex : Extractors) (content : AcquiredContent) (task : String),
       ((detectIntent task).isComplexTask = true ∨
        (detectIntent task).requiresNavigation = true ∨
        (detectIntent task).wantsStructuredData = true ∨
        (detectIntent task).isResearch = true) →
       (tryNonLlmExtraction ex content task).success = false)
  ∧ (detectIntent "First get the product list, then email me a summary").isComplexTask
      = true := by
  constructor
  · intro ex content task h
    unfold tryNonLlmExtraction
    dsimp only
    generalize nonLlmGather ex content (detectIntent task) = g
    generalize hi : detectIntent task = intent at h
    clear hi
    obtain ⟨tried, data, found⟩ := g
    unfold nonLlmDecide
    rcases h with h | h | h | h <;> simp_all <;> (repeat' split) <;> rfl
  · decide

/-- An extractor record whose deterministic extraction finds data
everywhere (for the witness: data is found, yet the complex flag forces
failure). -/
def exProbe : Extractors :=
  { pageTitle := fun _ => "Example Shop"
    textContent := fun _ => "welcome to the shop"
    emails := fun _ => ["sales@shop.example.com"]
    phones := fun _ => ["1234567"]
    products := fun _ _ => [{ name := "Widget", url := "https://shop.example.com/p/1" }] }

set_option maxHeartbeats 2000000 in
/-- Witness for C8 at the example task: flagged complex, and extraction
fails despite the extractors finding data. -/
theorem C8_complexity_flags_force_llm_witness :
    (detectIntent "First get the product list, then email me a summary").isComplexTask
      = true ∧
    (tryNonLlmExtraction exProbe probeContent
      "First get the product list, then email me a summary").success = false :=
  ⟨by decide,
   C8_complexity_flags_force_llm.1 exProbe probeContent
     "First get the product list, then email me a summary" (Or.inl (by decide))⟩

/-! ## Claim C9 — product extraction (corrected)

The selector-priority stop, the minimum name length and the link
requirement hold; but deduplication is **not** by absolute URL: the source
tests `seenUrls.has` on the *raw* href yet adds the *absolutized* href, so a
relative href that resolves to an already-emitted absolute URL yields a
duplicate. -/

/-- A product card whose name selector answers `Widget`. -/
def card9 (href : String) : CardEl :=
  { anyLink := some { href := some href }
    findText := fun s => if s = "[class*=\"title\"]" then some "Widget" else none }

/-- A DOM with two cards whose hrefs — one absolute, one relative — resolve
to the same absolute URL. -/
def dom9 : Dom :=
  { select := fun s =>
      if s = "[class*=\"product\"]" then [card9 "http://x/a", card9 "/a"] else []
    resolve := fun h b =>
      if h = "/a" && b = "http://x" then some "http://x/a" else none }

/-- **C9 counterexample.** An absolute href emitted first and a relative
href resolving to the same absolute URL both survive: the result holds two
entries with the same absolute URL. -/
theorem C9_counterexample :
    extractProductsFromHtml dom9 "<html>" (some "http://x") =
      [{ name := "Widget", url := "http://x/a" },
       { name := "Widget", url := "http://x/a" }] ∧
    ¬ ((extractProductsFromHtml dom9 "<html>" (some "http://x")).map
        (fun p => p.url)).Nodup := by
  refine ⟨by decide, by decide⟩

/-- The selector loop stops at the first selector yielding products. -/
theorem firstSelectorYield_spec (dom : Dom) (baseUrl : Option String) :
    ∀ sels : List String,
      firstSelectorYield dom baseUrl sels ≠ [] →
      ∃ k, k < sels.length ∧
        firstSelectorYield dom baseUrl sels =
          productsBySelector dom baseUrl (sels.getD k "") ∧
        ∀ j, j < k → productsBySelector dom baseUrl (sels.getD j "") = [] := by
  intro sels
  induction sels with
  | nil => intro h; simp [firstSelectorYield] at h
  | cons sel rest ih =>
    intro h
    unfold firstSelectorYield at h ⊢
    by_cases hp : (productsBySelector dom baseUrl sel).length > 0
    · rw [if_pos hp] at h ⊢
      exact ⟨0, by simp, by simp, fun j hj => absurd hj (by omega)⟩
    · rw [if_neg hp] at h ⊢
      obtain ⟨k, hk, heq, hprev⟩ := ih h
      refine ⟨k + 1, by simpa using Nat.succ_lt_succ hk, by simpa using heq, ?_⟩
      intro j hj
      cases j with
      | zero =>
        simp only [List.getD_cons_zero]
        simp only [gt_iff_lt, not_lt, Nat.le_zero, List.length_eq_zero] at hp
        exact hp
      | succ j2 => simpa using hprev j2 (by omega)

/-- The per-card step preserves "non-empty URL, name of length ≥ 2" (under
a well-formed resolver). -/
theorem processCard_good (dom : Dom) (baseUrl : Option String)
    (hres : ∀ r b u, dom.resolve r b = some u → u ≠ "")
    (acc : List ProductSummary × List String) (el : CardEl)
    (hacc : ∀ p ∈ acc.1, p.url ≠ "" ∧ 2 ≤ p.name.length) :
    ∀ p ∈ (processCard dom baseUrl acc el).1, p.url ≠ "" ∧ 2 ≤ p.name.length := by
  intro p hp
  unfold processCard at hp
  dsimp only at hp
  repeat' split at hp
  all_goals try exact hacc p hp
  rename_i x1 linkEl hlink hguard x2 u heq hname
  rcases List.mem_append.mp hp with hIn | hNew
  · exact hacc p hIn
  · rw [List.mem_singleton] at hNew
    subst hNew
    simp only [Bool.or_eq_true, decide_eq_true_eq, not_or] at hguard hname
    refine ⟨?_, ?_⟩
    · show u ≠ ""
      split at heq
      · split at heq
        · exact hres _ _ _ heq
        · simp only [Option.some.injEq] at heq
          subst heq
          exact hguard.1
      · simp only [Option.some.injEq] at heq
        subst heq
        exact hguard.1
    · show 2 ≤ (nameOf el linkEl).length
      have := hname.2
      omega

/-- Fold version of `processCard_good`. -/
theorem foldl_processCard_good (dom : Dom) (baseUrl : Option String)
    (hres : ∀ r b u, dom.resolve r b = some u → u ≠ "") :
    ∀ (els : List CardEl) (acc : List ProductSummary × List String),
      (∀ p ∈ acc.1, p.url ≠ "" ∧ 2 ≤ p.name.length) →
      ∀ p ∈ (els.foldl (processCard dom baseUrl) acc).1,
        p.url ≠ "" ∧ 2 ≤ p.name.length := by
  intro els
  induction els with
  | nil => intro acc hacc; exact hacc
  | cons el rest ih =>
    intro acc hacc
    exact ih (processCard dom baseUrl acc el) (processCard_good dom baseUrl hres acc el hacc)

/-- With no (truthy) base URL, the per-card step keeps "emitted URLs equal
the seen set, and the seen set has no duplicates". -/
theorem processCard_nodup (dom : Dom) (baseUrl : Option String)
    (hb : strVal baseUrl = none) (acc : List ProductSummary × List String)
    (el : CardEl)
    (hmap : acc.1.map (fun p => p.url) = acc.2) (hnd : acc.2.Nodup) :
    (processCard dom baseUrl acc el).1.map (fun p => p.url) =
      (processCard dom baseUrl acc el).2 ∧
    (processCard dom baseUrl acc el).2.Nodup := by
  unfold processCard
  dsimp only
  rw [hb]
  repeat' split
  all_goals try exact ⟨hmap, hnd⟩
  rename_i x1 linkEl hlink hguard x2 u heq hname
  dsimp only at heq
  simp only [Option.some.injEq] at heq
  subst heq
  simp only [Bool.or_eq_true, decide_eq_true_eq, not_or] at hguard
  constructor
  · simp [hmap]
  · rw [List.nodup_append]
    refine ⟨hnd, List.nodup_singleton _, ?_⟩
    intro a ha hax
    rw [List.mem_singleton] at hax
    subst hax
    exact hguard.2 ha

/-- Fold version of `processCard_nodup`. -/
theorem foldl_processCard_nodup (dom : Dom) (baseUrl : Option String)
    (hb : strVal baseUrl = none) :
    ∀ (els : List CardEl) (acc : List ProductSummary × List String),
      acc.1.map (fun p => p.url) = acc.2 → acc.2.Nodup →
      ((els.foldl (processCard dom baseUrl) acc).1.map (fun p => p.url)).Nodup := by
  intro els
  induction els with
  | nil =>
    intro acc hmap hnd
    rw [List.foldl_nil, hmap]
    exact hnd
  | cons el rest ih =>
    intro acc hmap hnd
    rw [List.foldl_cons]
    obtain ⟨hmap2, hnd2⟩ := processCard_nodup dom baseUrl hb acc el hmap hnd
    exact ih _ hmap2 hnd2

/-- **C9 (amended).** `extractProductsFromHtml` scans the fixed selector
list in priority order and stops at the first selector yielding products;
every returned entry has a non-empty (resolved) link and a name of at least
2 characters. Deduplication, however, keys the membership test on the raw
href while adding the absolutized href: when no relative-URL resolution
occurs (no truthy base URL), no two entries share a URL; with resolution, a
relative href resolving to an already-emitted absolute URL produces a
duplicate (see the counterexample). -/
theorem C9_product_extraction_amended (dom : Dom) (html : String)
    (baseUrl : Option String) :
    (extractProductsFromHtml dom html baseUrl ≠ [] →
      ∃ k, k < productSelectors.length ∧
        extractProductsFromHtml dom html baseUrl =
          productsBySelector dom baseUrl (productSelectors.getD k "") ∧
        ∀ j, j < k → productsBySelector dom baseUrl (productSelectors.getD j "") = []) ∧
    ((∀ r b u, dom.resolve r b = some u → u ≠ "") →
      ∀ p ∈ extractProductsFromHtml dom html baseUrl,
        p.url ≠ "" ∧ 2 ≤ p.name.length) ∧
    (strVal baseUrl = none →
      ((extractProductsFromHtml dom html baseUrl).map (fun p => p.url)).Nodup) := by
  refine ⟨?_, ?_, ?_⟩
  · intro h
    unfold extractProductsFromHtml at h ⊢
    by_cases hhtml : html = ""
    · rw [if_pos hhtml] at h
      simp at h
    · rw [if_neg hhtml] at h ⊢
      exact firstSelectorYield_spec dom baseUrl productSelectors h
  · intro hres p hp
    unfold extractProductsFromHtml at hp
    split at hp
    · simp at hp
    · have hgen : ∀ sels : List String, p ∈ firstSelectorYield dom baseUrl sels →
          p.url ≠ "" ∧ 2 ≤ p.name.length := by
        intro sels
        induction sels with
        | nil => intro hh; simp [firstSelectorYield] at hh
        | cons sel rest ihs =>
          intro hh
          unfold firstSelectorYield at hh
          dsimp only at hh
          split at hh
          · exact foldl_processCard_good dom baseUrl hres (dom.select sel) ([], [])
              (by simp) p hh
          · exact ihs hh
      exact hgen productSelectors hp
  · intro hb
    unfold extractProductsFromHtml
    split
    · simp
    · have hgen : ∀ sels : List String,
          ((firstSelectorYield dom baseUrl sels).map (fun p => p.url)).Nodup := by
        intro sels
        induction sels with
        | nil => simp [firstSelectorYield]
        | cons sel rest ihs =>
          unfold firstSelectorYield
          dsimp only
          split
          · exact foldl_processCard_nodup dom baseUrl hb (dom.select sel) ([], [])
              (by simp) (by simp)
          · exact ihs
      exact hgen productSelectors

/-- A DOM for the amended-C9 witness: one selector yields one card with an
absolute link. -/
def dom10 : Dom :=
  { select := fun s => if s = "[class*=\"item\"]" then [card9 "http://x/b"] else []
    resolve := fun _ _ => none }

/-- Witness for the amended C9: the first yielding selector is the second
one, the entry is well-formed, and the URLs are duplicate-free. -/
theorem C9_product_extraction_amended_witness :
    (extractProductsFromHtml dom10 "<html>" none =
      [{ name := "Widget", url := "http://x/b" }]) ∧
    (∀ p ∈ extractProductsFromHtml dom10 "<html>" none,
      p.url ≠ "" ∧ 2 ≤ p.name.length) ∧
    ((extractProductsFromHtml dom10 "<html>" none).map (fun p => p.url)).Nodup ∧
    (∃ k, k < productSelectors.length ∧
      extractProductsFromHtml dom10 "<html>" none =
        productsBySelector dom10 none (productSelectors.getD k "") ∧
      ∀ j, j < k → productsBySelector dom10 none (productSelectors.getD j "") = []) := by
  have h := C9_product_extraction_amended dom10 "<html>" none
  refine ⟨by decide, h.2.1 (fun r b u hu => by simp [dom10] at hu), h.2.2 (by decide), ?_⟩
  exact h.1 (by decide)

/-! ## Executor lemmas (shared by C1, C2, C3) -/

theorem ne_empty_of_length_pos {s : String} (h : 0 < s.length) : s ≠ "" := by
  intro he
  rw [he] at h
  rw [show ("" : String).length = 0 from rfl] at h
  omega

theorem joinSep_cons_cons (sep a b : String) (l : List String) :
    joinSep sep (a :: b :: l) = a ++ sep ++ joinSep sep (b :: l) := rfl

/-- The non-LLM fallback summary is never empty (it starts with the task
header line). -/
theorem buildFallbackSummary_ne_empty (task : String) (content : ContentMap) :
    buildFallbackSummary task content ≠ "" := by
  unfold buildFallbackSummary
  dsimp only
  rw [List.cons_append, List.cons_append, List.nil_append, joinSep_cons_cons]
  apply ne_empty_of_length_pos
  rw [String.length_append, String.length_append, String.length_append,
    String.length_append]
  rw [show ("Task: " : String).length = 6 from rfl]
  omega

/-- Forced completion is never empty: a non-blank trimmed LLM answer, else
the non-empty fallback summary. -/
theorem forcedCompletion_ne_empty (fr : Except Unit String) (task : String)
    (content : ContentMap) : forcedCompletion fr task content ≠ "" := by
  unfold forcedCompletion
  cases fr with
  | error e => exact buildFallbackSummary_ne_empty task content
  | ok s =>
    dsimp only
    split
    · exact buildFallbackSummary_ne_empty task content
    · next h => exact h

/-- Bound and shape invariants of the ReAct loop, by induction on the
remaining fuel. -/
theorem agentLoop_base (env : AgentEnv) (ctx : ToolCtx) (task : String) (maxIter : Nat) :
    ∀ (fuel : Nat) (s : LoopState),
      s.iter + fuel = maxIter + 1 → s.pad.length + fuel ≤ maxIter →
      s.mainCalls + fuel ≤ maxIter →
      (agentLoop env ctx task maxIter fuel s).result.iterations ≤ maxIter ∧
      (agentLoop env ctx task maxIter fuel s).result.sources =
        mapKeys (agentLoop env ctx task maxIter fuel s).finalMap ∧
      ((agentLoop env ctx task maxIter fuel s).result.success = false →
        (agentLoop env ctx task maxIter fuel s).result.text = "" ∧
        (agentLoop env ctx task maxIter fuel s).result.error.isSome = true) ∧
      (agentLoop env ctx task maxIter fuel s).mainCalls ≤ maxIter := by
  intro fuel
  induction fuel with
  | zero =>
    intro s h1 h2 h3
    unfold agentLoop
    refine ⟨by dsimp only; omega, rfl, ?_, by dsimp only; omega⟩
    intro hfalse
    simp at hfalse
  | succ fuel ih =>
    intro s h1 h2 h3
    unfold agentLoop
    dsimp only
    split
    · refine ⟨by dsimp only; omega, rfl, ?_, by dsimp only; omega⟩
      intro _
      exact ⟨rfl, rfl⟩
    · split
      · exact ih _ (by dsimp only; omega) (by simp; omega) (by dsimp only; omega)
      · split
        · split
          · refine ⟨by dsimp only; omega, rfl, ?_, by dsimp only; omega⟩
            intro hfalse
            simp at hfalse
          · refine ⟨by dsimp only; omega, rfl, ?_, by dsimp only; omega⟩
            intro hfalse
            simp at hfalse
        · exact ih _ (by dsimp only; omega) (by simp; omega) (by dsimp only; omega)

/-- A think/act step in which the LLM answers but does not call `complete`:
the response parses to a non-`complete` action or fails to parse. -/
def noCompleteStep (env : AgentEnv) (i : Nat) : Prop :=
  ∃ rsp, env.llm i = .ok rsp ∧
    (env.parse rsp = none ∨ ∃ p, env.parse rsp = some p ∧ p.tool ≠ "complete")

/-- If no remaining step calls `complete`, the loop exhausts its fuel and
returns the forced synthesis with `iterations = maxIter`. -/
theorem agentLoop_exhaust (env : AgentEnv) (ctx : ToolCtx) (task : String) (maxIter : Nat) :
    ∀ (fuel : Nat) (s : LoopState),
      s.iter + fuel = maxIter + 1 →
      (∀ i, s.iter ≤ i → i ≤ maxIter → noCompleteStep env i) →
      (agentLoop env ctx task maxIter fuel s).result.success = true ∧
      (agentLoop env ctx task maxIter fuel s).result.iterations = maxIter ∧
      (agentLoop env ctx task maxIter fuel s).result.text =
        forcedCompletion env.forcedLLM task
          (agentLoop env ctx task maxIter fuel s).finalMap := by
  intro fuel
  induction fuel with
  | zero =>
    intro s h1 hsteps
    unfold agentLoop
    exact ⟨rfl, rfl, rfl⟩
  | succ fuel ih =>
    intro s h1 hsteps
    obtain ⟨rsp, hllm, hparse⟩ := hsteps s.iter (le_refl _) (by omega)
    unfold agentLoop
    dsimp only
    rw [hllm]
    dsimp only
    rcases hparse with hnone | ⟨p, hsome, htool⟩
    · rw [hnone]
      dsimp only
      exact ih _ (by dsimp only; omega) (by
        intro i hi hi2
        exact hsteps i (by dsimp only at hi; omega) hi2)
    · rw [hsome]
      dsimp only
      rw [if_neg htool]
      exact ih _ (by dsimp only; omega) (by
        intro i hi hi2
        exact hsteps i (by dsimp only at hi; omega) hi2)

/-- **C3.** Every `AgentResult` returned by `executeAgent` — on any return
path — has `iterations` at most the configured maximum, `sources` equal to
the key set of the accumulated-content map at the moment of return, and, on
failure, empty `text` with a populated `error`. -/
theorem C3_agent_result_invariants (env : AgentEnv) (task : String)
    (initialContent : AcquiredContent) (nonLlmAttempt : ExtractionAttempt)
    (options : AgentOptions) :
    (executeAgentT env task initialContent nonLlmAttempt options).result.iterations ≤
      natOr options.maxIterations 5 ∧
    (executeAgentT env task initialContent nonLlmAttempt options).result.sources =
      mapKeys (executeAgentT env task initialContent nonLlmAttempt options).finalMap ∧
    ((executeAgentT env task initialContent nonLlmAttempt options).result.success = false →
      (executeAgentT env task initialContent nonLlmAttempt options).result.text = "" ∧
      (executeAgentT env task initialContent nonLlmAttempt options).result.error.isSome
        = true) := by
  have h := agentLoop_base env
    { flareSolverrUrl := options.flareSolverrUrl
      crawl4aiBaseUrl := options.crawl4aiBaseUrl }
    task (natOr options.maxIterations 5) (natOr options.maxIterations 5)
    { iter := 1, pad := [], m := mapSet [] initialContent.url initialContent
      st := {}, llmCalls := 0, totalCost := 0, mainCalls := 0 }
    (by dsimp only; omega) (by dsimp only; simp) (by dsimp only; omega)
  exact ⟨h.1, h.2.1, h.2.2.1⟩

/-- The environment used by failure-path witnesses: the very first LLM call
throws. -/
def envLlmFails : AgentEnv :=
  { llm := fun _ => .error "LLM API error (500): upstream unavailable"
    parse := fun _ => none
    forcedLLM := .error ()
    net := netProbe
    costPerCall := 3 }

/-- A concrete Stage-2 attempt for executor witnesses. -/
def attemptProbe : ExtractionAttempt :=
  { success := false, data := none, whatWasTried := ["page_title_extraction"]
    reason := "Complex multi-step task requires LLM orchestration"
    detectedIntent := detectIntent "First get the product list, then email me a summary" }

/-- Witness for C3 on the failure path: the thrown LLM error yields
`success = false`, empty text, a populated error, and in-range iterations. -/
theorem C3_agent_result_invariants_witness :
    (executeAgentT envLlmFails "research the shop" probeContent attemptProbe {}).result.success
        = false ∧
    (executeAgentT envLlmFails "research the shop" probeContent attemptProbe {}).result.text
        = "" ∧
    (executeAgentT envLlmFails "research the shop" probeContent attemptProbe {}).result.error.isSome
        = true ∧
    (executeAgentT envLlmFails "research the shop" probeContent attemptProbe {}).result.iterations
        ≤ 5 ∧
    (executeAgentT envLlmFails "research the shop" probeContent attemptProbe {}).result.sources
        = mapKeys (executeAgentT envLlmFails "research the shop" probeContent attemptProbe {}).finalMap := by
  have h := C3_agent_result_invariants envLlmFails "research the shop" probeContent
    attemptProbe {}
  have hfalse :
      (executeAgentT envLlmFails "research the shop" probeContent attemptProbe {}).result.success
        = false := by decide
  obtain ⟨htext, herr⟩ := h.2.2 hfalse
  exact ⟨hfalse, htext, herr, h.1, h.2.1⟩

/-- **C1.** The agent loop executes at most `maxIterations` (default 5)
think/act LLM iterations; if it ends without the LLM ever calling
`complete`, the executor runs forced synthesis and returns `success = true`,
`iterations = maxIterations` and non-empty text; and the non-LLM fallback
summary is itself always non-empty. -/
theorem C1_bounded_loop_forced_synthesis (env : AgentEnv) (task : String)
    (initialContent : AcquiredContent) (nonLlmAttempt : ExtractionAttempt)
    (options : AgentOptions) :
    (executeAgentT env task initialContent nonLlmAttempt options).mainCalls ≤
      natOr options.maxIterations 5 ∧
    ((∀ i, 1 ≤ i → i ≤ natOr options.maxIterations 5 → noCompleteStep env i) →
      (executeAgentT env task initialContent nonLlmAttempt options).result.success = true ∧
      (executeAgentT env task initialContent nonLlmAttempt options).result.iterations =
        natOr options.maxIterations 5 ∧
      (executeAgentT env task initialContent nonLlmAttempt options).result.text ≠ "") ∧
    (∀ (t : String) (c : ContentMap), buildFallbackSummary t c ≠ "") := by
  refine ⟨?_, ?_, buildFallbackSummary_ne_empty⟩
  · exact (agentLoop_base env
      { flareSolverrUrl := options.flareSolverrUrl
        crawl4aiBaseUrl := options.crawl4aiBaseUrl }
      task (natOr options.maxIterations 5) (natOr options.maxIterations 5)
      { iter := 1, pad := [], m := mapSet [] initialContent.url initialContent
        st := {}, llmCalls := 0, totalCost := 0, mainCalls := 0 }
      (by dsimp only; omega) (by dsimp only; simp) (by dsimp only; omega)).2.2.2
  · intro hsteps
    have h := agentLoop_exhaust env
      { flareSolverrUrl := options.flareSolverrUrl
        crawl4aiBaseUrl := options.crawl4aiBaseUrl }
      task (natOr options.maxIterations 5) (natOr options.maxIterations 5)
      { iter := 1, pad := [], m := mapSet [] initialContent.url initialContent
        st := {}, llmCalls := 0, totalCost := 0, mainCalls := 0 }
      (by dsimp only; omega) (by intro i hi hi2; dsimp only at hi; exact hsteps i hi hi2)
    refine ⟨h.1, h.2.1, ?_⟩
    have htext :
        (executeAgentT env task initialContent nonLlmAttempt options).result.text =
          forcedCompletion env.forcedLLM task
            (executeAgentT env task initialContent nonLlmAttempt options).finalMap := h.2.2
    rw [htext]
    exact forcedCompletion_ne_empty _ _ _

/-- The environment used by the exhaustion witness: the LLM always answers
something unparseable, and the synthesis call fails (driving the non-LLM
fallback). -/
def envNeverCompletes : AgentEnv :=
  { llm := fun _ => .ok "I could not decide on a tool"
    parse := fun _ => none
    forcedLLM := .error ()
    net := netProbe
    costPerCall := 3 }

/-- Witness for C1: five unparseable iterations, then forced synthesis via
the non-LLM fallback — `success = true`, `iterations = 5`, non-empty text. -/
theorem C1_bounded_loop_forced_synthesis_witness :
    (executeAgentT envNeverCompletes "research the shop" probeContent attemptProbe {}).mainCalls
        ≤ 5 ∧
    (executeAgentT envNeverCompletes "research the shop" probeContent attemptProbe {}).result.success
        = true ∧
    (executeAgentT envNeverCompletes "research the shop" probeContent attemptProbe {}).result.iterations
        = 5 ∧
    (executeAgentT envNeverCompletes "research the shop" probeContent attemptProbe {}).result.text
        ≠ "" := by
  have h := C1_bounded_loop_forced_synthesis envNeverCompletes "research the shop"
    probeContent attemptProbe {}
  have h2 := h.2.1 (fun i _ _ => ⟨"I could not decide on a tool", rfl, Or.inl rfl⟩)
  exact ⟨h.1, h2.1, h2.2.1, h2.2.2⟩

/-- A think/act step in which the LLM calls `complete` with an empty or
whitespace-only `result`. -/
def blankCompleteStep (env : AgentEnv) (i : Nat) : Prop :=
  ∃ rsp p, env.llm i = .ok rsp ∧ env.parse rsp = some p ∧ p.tool = "complete" ∧
    trimStr (p.params.result.getD "") = ""

/-- If the first `k` steps do not call `complete` and step `iter + k` is a
blank `complete`, the loop returns forced synthesis at iteration `iter + k`
having made `k + 2` LLM calls beyond the starting count. -/
theorem agentLoop_blank (env : AgentEnv) (ctx : ToolCtx) (task : String) (maxIter : Nat) :
    ∀ (k fuel : Nat) (s : LoopState),
      k + 1 ≤ fuel →
      (∀ i, s.iter ≤ i → i < s.iter + k → noCompleteStep env i) →
      blankCompleteStep env (s.iter + k) →
      (agentLoop env ctx task maxIter fuel s).result.success = true ∧
      (agentLoop env ctx task maxIter fuel s).result.iterations = s.iter + k ∧
      (agentLoop env ctx task maxIter fuel s).result.llmCalls = s.llmCalls + k + 2 ∧
      (agentLoop env ctx task maxIter fuel s).result.text =
        forcedCompletion env.forcedLLM task
          (agentLoop env ctx task maxIter fuel s).finalMap := by
  intro k
  induction k with
  | zero =>
    intro fuel s hfuel hpre hblank
    obtain ⟨rsp, p, hllm, hparse, htool, hblankr⟩ := hblank
    cases fuel with
    | zero => omega
    | succ fuel =>
      unfold agentLoop
      dsimp only
      rw [Nat.add_zero] at hllm
      rw [hllm]
      dsimp only
      rw [hparse]
      dsimp only
      rw [if_pos htool, if_pos hblankr]
      exact ⟨rfl, rfl, rfl, rfl⟩
  | succ k ih =>
    intro fuel s hfuel hpre hblank
    cases fuel with
    | zero => omega
    | succ fuel =>
      obtain ⟨rsp, hllm, hparse⟩ := hpre s.iter (le_refl _) (by omega)
      unfold agentLoop
      dsimp only
      rw [hllm]
      dsimp only
      rcases hparse with hnone | ⟨p, hsome, htool⟩
      · rw [hnone]
        dsimp only
        rw [show s.iter + (k + 1) = s.iter + 1 + k from by omega,
            show s.llmCalls + (k + 1) + 2 = s.llmCalls + 1 + k + 2 from by omega]
        exact ih fuel _ (by omega)
          (by
            intro i hi hi2
            try dsimp only at hi hi2
            exact hpre i (by omega) (by omega))
          (by
            try dsimp only
            rw [show s.iter + 1 + k = s.iter + (k + 1) from by omega]
            exact hblank)
      · rw [hsome]
        dsimp only
        rw [if_neg htool]
        rw [show s.iter + (k + 1) = s.iter + 1 + k from by omega,
            show s.llmCalls + (k + 1) + 2 = s.llmCalls + 1 + k + 2 from by omega]
        exact ih fuel _ (by omega)
          (by
            intro i hi hi2
            try dsimp only at hi hi2
            exact hpre i (by omega) (by omega))
          (by
            try dsimp only
            rw [show s.iter + 1 + k = s.iter + (k + 1) from by omega]
            exact hblank)

/-- **C2.** If some iteration's parsed action is `complete` with a blank
`result` (all earlier iterations answering without a `complete`), the
executor does not return the empty text: it makes one additional
forced-synthesis LLM call (total `j + 1` calls) and returns
`success = true` with the synthesized non-empty text. -/
theorem C2_blank_complete_forced_synthesis (env : AgentEnv) (task : String)
    (initialContent : AcquiredContent) (nonLlmAttempt : ExtractionAttempt)
    (options : AgentOptions) (j : Nat)
    (hj1 : 1 ≤ j) (hj2 : j ≤ natOr options.maxIterations 5)
    (hpre : ∀ i, 1 ≤ i → i < j → noCompleteStep env i)
    (hblank : blankCompleteStep env j) :
    (executeAgentT env task initialContent nonLlmAttempt options).result.success = true ∧
    (executeAgentT env task initialContent nonLlmAttempt options).result.iterations = j ∧
    (executeAgentT env task initialContent nonLlmAttempt options).result.llmCalls = j + 1 ∧
    (executeAgentT env task initialContent nonLlmAttempt options).result.text =
      forcedCompletion env.forcedLLM task
        (executeAgentT env task initialContent nonLlmAttempt options).finalMap ∧
    (executeAgentT env task initialContent nonLlmAttempt options).result.text ≠ "" := by
  have h := agentLoop_blank env
    { flareSolverrUrl := options.flareSolverrUrl
      crawl4aiBaseUrl := options.crawl4aiBaseUrl }
    task (natOr options.maxIterations 5) (j - 1) (natOr options.maxIterations 5)
    { iter := 1, pad := [], m := mapSet [] initialContent.url initialContent
      st := {}, llmCalls := 0, totalCost := 0, mainCalls := 0 }
    (by omega)
    (by
      intro i hi hi2
      dsimp only at hi hi2
      exact hpre i hi (by omega))
    (by
      dsimp only
      rw [show 1 + (j - 1) = j from by omega]
      exact hblank)
  have hres2 :
      (executeAgentT env task initialContent nonLlmAttempt options).result.iterations =
        1 + (j - 1) := h.2.1
  have hres3 :
      (executeAgentT env task initialContent nonLlmAttempt options).result.llmCalls =
        0 + (j - 1) + 2 := h.2.2.1
  have hres4 :
      (executeAgentT env task initialContent nonLlmAttempt options).result.text =
        forcedCompletion env.forcedLLM task
          (executeAgentT env task initialContent nonLlmAttempt options).finalMap := h.2.2.2
  refine ⟨h.1, by rw [hres2]; omega, by rw [hres3]; omega, hres4, ?_⟩
  rw [hres4]
  exact forcedCompletion_ne_empty _ _ _

/-- The environment used by the C2 witness: the first response is a
`complete` whose result is whitespace-only; the synthesis call answers. -/
def envBlankComplete : AgentEnv :=
  { llm := fun _ => .ok "BLANK"
    parse := fun rsp =>
      if rsp = "BLANK" then
        some { thinking := "done", tool := "complete", params := { result := some "   " } }
      else none
    forcedLLM := .ok "  The shop sells widgets.  "
    net := netProbe
    costPerCall := 3 }

/-- Witness for C2: iteration 1 is a blank `complete`; the result is the
trimmed synthesized answer, `success = true`, two LLM calls. -/
theorem C2_blank_complete_forced_synthesis_witness :
    (executeAgentT envBlankComplete "what does the shop sell" probeContent attemptProbe {}).result.success
        = true ∧
    (executeAgentT envBlankComplete "what does the shop sell" probeContent attemptProbe {}).result.iterations
        = 1 ∧
    (executeAgentT envBlankComplete "what does the shop sell" probeContent attemptProbe {}).result.llmCalls
        = 2 ∧
    (executeAgentT envBlankComplete "what does the shop sell" probeContent attemptProbe {}).result.text
        ≠ "" := by
  have h := C2_blank_complete_forced_synthesis envBlankComplete "what does the shop sell"
    probeContent attemptProbe {} 1 (le_refl 1) (by decide)
    (fun i hi hi2 => absurd (lt_of_le_of_lt hi hi2) (by omega))
    ⟨"BLANK", { thinking := "done", tool := "complete", params := { result := some "   " } },
      rfl, by decide, rfl, by decide⟩
  exact ⟨h.1, h.2.1, h.2.2.1, h.2.2.2.2⟩

/-! ## Claim C7 — e-mail extraction -/

theorem ws_cases {c : Char} (h : isWS c = true) :
    c = ' ' ∨ c = '\t' ∨ c = '\n' ∨ c = '\r' := by
  unfold isWS at h
  simp only [Bool.or_eq_true, decide_eq_true_eq] at h
  tauto

theorem isLocalChar_not_ws {c : Char} (h : isLocalChar c = true) : isWS c = false := by
  cases hw : isWS c with
  | false => rfl
  | true =>
    rcases ws_cases hw with rfl | rfl | rfl | rfl <;> exact absurd h (by decide)

theorem isDomainChar_not_ws {c : Char} (h : isDomainChar c = true) : isWS c = false := by
  cases hw : isWS c with
  | false => rfl
  | true =>
    rcases ws_cases hw with rfl | rfl | rfl | rfl <;> exact absurd h (by decide)

theorem isAlpha_not_ws {c : Char} (h : c.isAlpha = true) : isWS c = false := by
  cases hw : isWS c with
  | false => rfl
  | true =>
    rcases ws_cases hw with rfl | rfl | rfl | rfl <;> exact absurd h (by decide)

theorem mailtoChar_not_ws {c : Char} (h : mailtoChar c = true) : isWS c = false := by
  unfold mailtoChar at h
  simp only [Bool.not_eq_true', Bool.or_eq_false_iff] at h
  exact h.2

/-- The characters of a domain match are domain characters, the dot, or
trailing letters — never whitespace. -/
theorem domainMatch_no_ws {ds dm : List Char} {k : Nat}
    (hds : ∀ c ∈ ds, isDomainChar c = true)
    (h : domainMatch ds = some (dm, k)) : ∀ c ∈ dm, isWS c = false := by
  unfold domainMatch at h
  obtain ⟨p, _, hp⟩ := List.exists_of_findSome?_eq_some h
  split at hp
  · dsimp only at hp
    split at hp
    · simp only [Option.some.injEq, Prod.mk.injEq] at hp
      obtain ⟨hdm, _⟩ := hp
      subst hdm
      intro c hc
      rcases List.mem_append.mp hc with h1 | h2
      · exact isDomainChar_not_ws (hds c (List.take_subset _ _ h1))
      · rcases List.mem_cons.mp h2 with rfl | htail
        · rfl
        · exact isAlpha_not_ws (mem_takeWhile_pred htail)
    · simp at hp
  · simp at hp

/-- E-mail regex matches contain no whitespace. -/
theorem emailScan_no_ws :
    ∀ (fuel : Nat) (l : List Char), ∀ e ∈ emailScan fuel l, ∀ c ∈ e, isWS c = false := by
  intro fuel
  induction fuel with
  | zero => intro l e he; simp [emailScan] at he
  | succ fuel ih =>
    intro l e he c hc
    unfold emailScan at he
    split at he
    · simp at he
    · next pre post heq =>
      dsimp only at he
      split at he
      · exact ih _ _ he c hc
      · split at he
        · exact ih _ _ he c hc
        · next dm consumed hdm =>
          rcases List.mem_cons.mp he with he1 | he2
          · subst he1
            rcases List.mem_append.mp hc with hcl | hcr
            · exact isLocalChar_not_ws
                (mem_takeWhile_pred (List.mem_reverse.mp hcl))
            · rcases List.mem_cons.mp hcr with rfl | hcd
              · rfl
              · exact domainMatch_no_ws
                  (fun d hd => mem_takeWhile_pred hd) hdm c hcd
          · exact ih _ _ he2 c hc

/-- `mailto:` captures contain no whitespace. -/
theorem mailtoScan_no_ws :
    ∀ (fuel : Nat) (l : List Char), ∀ e ∈ mailtoScan fuel l, ∀ c ∈ e, isWS c = false := by
  intro fuel
  induction fuel with
  | zero => intro l e he; simp [mailtoScan] at he
  | succ fuel ih =>
    intro l e he c hc
    unfold mailtoScan at he
    match l, he with
    | [], he => simp at he
    | a :: l2, he =>
      dsimp only at he
      split at he
      · split at he
        · exact ih _ _ he c hc
        · rcases List.mem_cons.mp he with he1 | he2
          · subst he1
            exact mailtoChar_not_ws (mem_takeWhile_pred hc)
          · exact ih _ _ he2 c hc
      · exact ih _ _ he c hc

/-- The well-formedness the insertion sites establish: lowercase only and
junk-free. -/
def cleanEmail (e : String) : Prop :=
  (∀ c ∈ e.toList, upperA c = false) ∧ isJunkEmail e = false

/-- What gets inserted into the set — `email.toLowerCase().trim()` of a
whitespace-free non-junk candidate — is clean. -/
theorem cleanEmail_mkLowerTrim {x : List Char} (hx : isJunkEmailL x = false)
    (hws : ∀ c ∈ x, isWS c = false) : cleanEmail (mkLowerTrim x) := by
  have htolist : (mkLowerTrim x).toList = trimL (lowerL x) := rfl
  have hlws : ∀ c ∈ lowerL x, isWS c = false := by
    intro c hc
    obtain ⟨d, hd, rfl⟩ := List.mem_map.mp hc
    rw [isWS_lowerChar]
    exact hws d hd
  have htrim : trimL (lowerL x) = lowerL x := trimL_of_no_ws hlws
  constructor
  · intro c hc
    rw [htolist, htrim] at hc
    exact mem_lowerL_not_upperA hc
  · unfold isJunkEmail
    rw [htolist, htrim]
    unfold isJunkEmailL at hx ⊢
    rw [lowerL_idem]
    exact hx

/-- `addStd` preserves cleanliness of the accumulator. -/
theorem addStd_clean {acc : List String} {m : List Char}
    (hacc : ∀ e ∈ acc, cleanEmail e) (hws : ∀ c ∈ m, isWS c = false) :
    ∀ e ∈ addStd acc m, cleanEmail e := by
  intro e he
  unfold addStd at he
  split at he
  · next hjunk =>
    rcases mem_setAdd he with h | h
    · exact hacc e h
    · subst h
      rw [Bool.not_eq_true'] at hjunk
      exact cleanEmail_mkLowerTrim hjunk hws
  · exact hacc e he

/-- `addMailto` preserves cleanliness of the accumulator. -/
theorem addMailto_clean {acc : List String} {m : List Char}
    (hacc : ∀ e ∈ acc, cleanEmail e) (hws : ∀ c ∈ m, isWS c = false) :
    ∀ e ∈ addMailto acc m, cleanEmail e := by
  intro e he
  unfold addMailto at he
  dsimp only at he
  split at he
  · next hcond =>
    simp only [Bool.and_eq_true, Bool.not_eq_true'] at hcond
    rcases mem_setAdd he with h | h
    · exact hacc e h
    · subst h
      refine cleanEmail_mkLowerTrim hcond.2 ?_
      intro c hc
      exact hws c
        (List.takeWhile_subset _ (List.takeWhile_subset _ hc))
  · exact hacc e he

theorem foldl_addStd_clean :
    ∀ (ms : List (List Char)) (acc : List String),
      (∀ m ∈ ms, ∀ c ∈ m, isWS c = false) → (∀ e ∈ acc, cleanEmail e) →
      ∀ e ∈ ms.foldl addStd acc, cleanEmail e := by
  intro ms
  induction ms with
  | nil => intro acc _ hacc; exact hacc
  | cons m rest ih =>
    intro acc hms hacc
    rw [List.foldl_cons]
    exact ih _ (fun m2 hm2 => hms m2 (List.mem_cons_of_mem _ hm2))
      (addStd_clean hacc (hms m (List.mem_cons_self _ _)))

theorem foldl_addMailto_clean :
    ∀ (ms : List (List Char)) (acc : List String),
      (∀ m ∈ ms, ∀ c ∈ m, isWS c = false) → (∀ e ∈ acc, cleanEmail e) →
      ∀ e ∈ ms.foldl addMailto acc, cleanEmail e := by
  intro ms
  induction ms with
  | nil => intro acc _ hacc; exact hacc
  | cons m rest ih =>
    intro acc hms hacc
    rw [List.foldl_cons]
    exact ih _ (fun m2 hm2 => hms m2 (List.mem_cons_of_mem _ hm2))
      (addMailto_clean hacc (hms m (List.mem_cons_self _ _)))

theorem foldl_href_clean :
    ∀ (ms : List (List Char)) (acc : List String),
      (∀ e ∈ acc, cleanEmail e) →
      ∀ e ∈ ms.foldl (fun acc m => (emailScan (m.length + 1) m).foldl addStd acc) acc,
        cleanEmail e := by
  intro ms
  induction ms with
  | nil => intro acc hacc; exact hacc
  | cons m rest ih =>
    intro acc hacc
    rw [List.foldl_cons]
    exact ih _ (foldl_addStd_clean _ _ (fun e2 he2 => emailScan_no_ws _ _ e2 he2) hacc)

theorem addStd_nodup {acc : List String} {m : List Char} (h : acc.Nodup) :
    (addStd acc m).Nodup := by
  unfold addStd
  split
  · exact setAdd_nodup h
  · exact h

theorem addMailto_nodup {acc : List String} {m : List Char} (h : acc.Nodup) :
    (addMailto acc m).Nodup := by
  unfold addMailto
  dsimp only
  split
  · exact setAdd_nodup h
  · exact h

theorem foldl_addStd_nodup :
    ∀ (ms : List (List Char)) (acc : List String), acc.Nodup →
      (ms.foldl addStd acc).Nodup := by
  intro ms
  induction ms with
  | nil => intro acc h; exact h
  | cons m rest ih => intro acc h; rw [List.foldl_cons]; exact ih _ (addStd_nodup h)

theorem foldl_addMailto_nodup :
    ∀ (ms : List (List Char)) (acc : List String), acc.Nodup →
      (ms.foldl addMailto acc).Nodup := by
  intro ms
  induction ms with
  | nil => intro acc h; exact h
  | cons m rest ih => intro acc h; rw [List.foldl_cons]; exact ih _ (addMailto_nodup h)

theorem foldl_href_nodup :
    ∀ (ms : List (List Char)) (acc : List String), acc.Nodup →
      (ms.foldl (fun acc m => (emailScan (m.length + 1) m).foldl addStd acc) acc).Nodup := by
  intro ms
  induction ms with
  | nil => intro acc h; exact h
  | cons m rest ih => intro acc h; rw [List.foldl_cons]; exact ih _ (foldl_addStd_nodup _ _ h)

/-- Every element of the candidate set built by `extractEmails` (before the
final filter) is clean, and the set is duplicate-free. -/
theorem extractEmails_set_clean (s : String) :
    (∀ e ∈ extractEmails s, cleanEmail e) ∧ (extractEmails s).Nodup := by
  unfold extractEmails
  split
  · simp
  · dsimp only
    constructor
    · intro e he
      rw [List.mem_filter] at he
      refine foldl_addStd_clean _ _
        (fun m hm => emailScan_no_ws _ _ m hm)
        (foldl_href_clean _ _
          (foldl_addMailto_clean _ _
            (fun m hm => mailtoScan_no_ws _ _ m hm) (by simp)))
        e he.1
    · exact List.Nodup.filter _
        (foldl_addStd_nodup _ _ (foldl_href_nodup _ _ (foldl_addMailto_nodup _ _
          List.nodup_nil)))

/-- **C7.** Every address `extractEmails` returns is lowercased (no ASCII
uppercase survives), junk-filtered, and carries a final TLD of length 2–10;
the result list is deduplicated (all entries lowercased and pairwise
distinct); and representative plain, `[at]`/`[dot]`-obfuscated,
HTML-entity-obfuscated and `mailto:` addresses are extracted, lowercased
and deduplicated case-insensitively, with junk and short-TLD addresses
excluded. -/
theorem C7_extract_emails :
    (∀ (s e : String), e ∈ extractEmails s →
       (∀ c ∈ e.toList, upperA c = false) ∧
       isJunkEmail e = false ∧
       2 ≤ (((splitOnSep '.' e.toList).getLast?).getD []).length ∧
       (((splitOnSep '.' e.toList).getLast?).getD []).length ≤ 10)
  ∧ (∀ s : String, (extractEmails s).Nodup)
  ∧ extractEmails "reach us at John [at] Example [dot] ORG" = ["john@example.org"]
  ∧ extractEmails "<a href=\"mailto:Sales@Shop.IO\">mail</a>" = ["sales@shop.io"]
  ∧ extractEmails "contact: info&#64;acme.org" = ["info@acme.org"]
  ∧ extractEmails "noreply@acme.org icon.png@acme.org real@acme.org" = ["real@acme.org"]
  ∧ extractEmails "a@b.c a@b.de" = ["a@b.de"]
  ∧ extractEmails "Dup@Acme.ORG dup@acme.org" = ["dup@acme.org"] := by
  refine ⟨?_, fun s => (extractEmails_set_clean s).2, by decide, by decide, by decide,
    by decide, by decide, by decide⟩
  intro s e he
  have hclean := (extractEmails_set_clean s).1 e he
  have hcheck : emailFinalCheck e = true := by
    unfold extractEmails at he
    split at he
    · simp at he
    · dsimp only at he
      exact (List.mem_filter.mp he).2
  refine ⟨hclean.1, hclean.2, ?_, ?_⟩ <;>
  · unfold emailFinalCheck at hcheck
    dsimp only at hcheck
    split at hcheck
    · simp at hcheck
    · split at hcheck
      · simp at hcheck
      · simp only [Bool.and_eq_true, decide_eq_true_eq] at hcheck
        omega

/-- Witness for C7: an obfuscated mixed-case address is extracted in
lowercase; the returned list satisfies the per-element guarantees. -/
theorem C7_extract_emails_witness :
    ("john@example.org" ∈ extractEmails "reach us at John [at] Example [dot] ORG") ∧
    (∀ c ∈ ("john@example.org" : String).toList, upperA c = false) ∧
    isJunkEmail "john@example.org" = false ∧
    (extractEmails "Dup@Acme.ORG dup@acme.org").Nodup := by
  have h := C7_extract_emails.1 "reach us at John [at] Example [dot] ORG"
    "john@example.org" (by decide)
  exact ⟨by decide, h.1, h.2.1, C7_extract_emails.2.1 _⟩

end WebAccess
